import Mathlib

/-!
# The session controller of codelite-lldb

A shallow embedding of `LLDBDebugger/codelite-lldb/CodeLiteLLDBApp.cpp`.

The controller is single threaded: every command handler and every
notification handler is a function from the controller state to the
controller state.  Two ghost fields record what the handlers do to the
outside world: `sent` is the sequence of replies handed to `SendReply`, and
`engineCalls` is the sequence of state-changing calls made on the debugging
engine.  "No reply", "no engine call" and "state unchanged" are therefore all
part of an equation between states.

The debugging engine (the LLDB `SB` API) is not part of the repository.  Its
objects are modelled as snapshots of what the controller can query, every
query on an invalid object yields the invalid object of its kind, and what
the engine decides on its own (what `Create`, `CreateTarget` and `Launch`
hand back, where a new breakpoint resolves) is a parameter, `Collaborators`.
What is assumed of the engine:

* ids (of values, breakpoints, processes) are unsigned and fit the `int` the
  controller stores them in, and so does the child count of a value;
* a create-breakpoint call on a valid target adds exactly one valid
  breakpoint, with a fresh id, at the end of the target's breakpoint list;
* `DeleteTarget` on a valid engine instance clears the target handle;
* `Continue`, `HandleCommand` and `SendAsyncInterrupt` return at once: their
  outcome reaches the controller later, as a notification.
-/

/-- The `wxNOT_FOUND` sentinel of wxWidgets. -/
def wxNOT_FOUND : Int := -1

namespace lldb

/-- Process states of the engine (`lldb::StateType`). -/
inductive StateType where
  | eStateInvalid
  | eStateUnloaded
  | eStateConnected
  | eStateAttaching
  | eStateLaunching
  | eStateStopped
  | eStateRunning
  | eStateStepping
  | eStateCrashed
  | eStateDetached
  | eStateExited
  | eStateSuspended
deriving DecidableEq, Repr

/-- Type classes of the engine (`lldb::TypeClass`), as far as the controller
tells them apart: it only tests for `eTypeClassArray`. -/
inductive TypeClass where
  | eTypeClassInvalid
  | eTypeClassArray
  | eTypeClassBuiltin
  | eTypeClassClass
  | eTypeClassPointer
  | eTypeClassStruct
  | eTypeClassOther
deriving DecidableEq, Repr

/-- Snapshot of an engine value (`lldb::SBValue`): the engine identifies a
value by an unsigned id, and a value has an ordered sequence of children. -/
structure SBValue where
  valid : Bool
  id : Nat
  name : String
  typeName : String
  value : String
  typeClass : TypeClass
  children : List SBValue
deriving Repr

/-- The value the engine hands out when there is nothing to hand out. -/
def SBValue.invalid : SBValue :=
  { valid := false, id := 0, name := "", typeName := "", value := "",
    typeClass := TypeClass.eTypeClassInvalid, children := [] }

def SBValue.IsValid (v : SBValue) : Bool := v.valid

/-- The id as the `int` the controller stores (ids are taken to fit an `int`). -/
def SBValue.GetID (v : SBValue) : Int := (v.id : Int)

/-- The child count as the `int` the controller stores (taken to fit an `int`). -/
def SBValue.GetNumChildren (v : SBValue) : Int := (v.children.length : Int)

def SBValue.GetChildAtIndex (v : SBValue) (i : Nat) : SBValue :=
  v.children.getD i SBValue.invalid

def SBValue.GetTypeClass (v : SBValue) : TypeClass := v.typeClass

/-- One resolved location of an engine breakpoint: the file spec and line of
the line entry at its address, and the name of the function there. -/
structure SBBreakpointLocation where
  directory : String
  filename : String
  line : Int
  functionName : String
deriving DecidableEq, Repr

def SBBreakpointLocation.invalid : SBBreakpointLocation :=
  { directory := "", filename := "", line := 0, functionName := "" }

/-- Snapshot of an engine breakpoint (`lldb::SBBreakpoint`). -/
structure SBBreakpoint where
  valid : Bool
  id : Nat
  locations : List SBBreakpointLocation
deriving DecidableEq, Repr

def SBBreakpoint.invalid : SBBreakpoint := { valid := false, id := 0, locations := [] }

def SBBreakpoint.IsValid (b : SBBreakpoint) : Bool := b.valid

/-- The id as the `int` the controller stores (ids are taken to fit an `int`). -/
def SBBreakpoint.GetID (b : SBBreakpoint) : Int := (b.id : Int)

def SBBreakpoint.GetNumLocations (b : SBBreakpoint) : Nat := b.locations.length

def SBBreakpoint.GetLocationAtIndex (b : SBBreakpoint) (i : Nat) : SBBreakpointLocation :=
  b.locations.getD i SBBreakpointLocation.invalid

structure SBLineEntry where
  valid : Bool
  line : Int
  directory : String
  filename : String
deriving DecidableEq, Repr

def SBLineEntry.invalid : SBLineEntry :=
  { valid := false, line := 0, directory := "", filename := "" }

/-- Snapshot of a stack frame: its line entry and its arguments and locals,
in engine order (what `GetVariables(true, true, false, true)` lists). -/
structure SBFrame where
  valid : Bool
  lineEntry : SBLineEntry
  vars : List SBValue
deriving Repr

def SBFrame.invalid : SBFrame :=
  { valid := false, lineEntry := SBLineEntry.invalid, vars := [] }

def SBFrame.IsValid (f : SBFrame) : Bool := f.valid

def SBFrame.GetLineEntry (f : SBFrame) : SBLineEntry :=
  if f.valid then f.lineEntry else SBLineEntry.invalid

def SBFrame.GetVariables (f : SBFrame) : List SBValue :=
  if f.valid then f.vars else []

structure SBThread where
  valid : Bool
  selectedFrame : SBFrame
  frames : List SBFrame
deriving Repr

def SBThread.invalid : SBThread :=
  { valid := false, selectedFrame := SBFrame.invalid, frames := [] }

def SBThread.IsValid (t : SBThread) : Bool := t.valid

def SBThread.GetSelectedFrame (t : SBThread) : SBFrame :=
  if t.valid then t.selectedFrame else SBFrame.invalid

/-- Snapshot of the debuggee process (`lldb::SBProcess`). Process ids are
unsigned in the engine. -/
structure SBProcess where
  valid : Bool
  pid : Nat
  state : StateType
  selectedThread : SBThread
deriving Repr

def SBProcess.invalid : SBProcess :=
  { valid := false, pid := 0, state := StateType.eStateInvalid,
    selectedThread := SBThread.invalid }

def SBProcess.IsValid (p : SBProcess) : Bool := p.valid

/-- The process id as the `int` the controller stores (taken to fit an `int`). -/
def SBProcess.GetProcessID (p : SBProcess) : Int := (p.pid : Int)

def SBProcess.GetState (p : SBProcess) : StateType :=
  if p.valid then p.state else StateType.eStateInvalid

def SBProcess.GetSelectedThread (p : SBProcess) : SBThread :=
  if p.valid then p.selectedThread else SBThread.invalid

/-- Snapshot of the target (`lldb::SBTarget`): its process, its user
breakpoints in index order, its watchpoints, and the id the engine gives to
the next breakpoint it creates. -/
structure SBTarget where
  valid : Bool
  executable : String
  process : SBProcess
  breakpoints : List SBBreakpoint
  watchpoints : List Nat
  nextBreakpointID : Nat
deriving Repr

def SBTarget.invalid : SBTarget :=
  { valid := false, executable := "", process := SBProcess.invalid,
    breakpoints := [], watchpoints := [], nextBreakpointID := 1 }

def SBTarget.IsValid (t : SBTarget) : Bool := t.valid

def SBTarget.GetProcess (t : SBTarget) : SBProcess :=
  if t.valid then t.process else SBProcess.invalid

def SBTarget.GetNumBreakpoints (t : SBTarget) : Nat :=
  if t.valid then t.breakpoints.length else 0

def SBTarget.GetBreakpointAtIndex (t : SBTarget) (i : Nat) : SBBreakpoint :=
  if t.valid then t.breakpoints.getD i SBBreakpoint.invalid else SBBreakpoint.invalid

def SBTarget.FindBreakpointByID (t : SBTarget) (id : Int) : SBBreakpoint :=
  if t.valid then (t.breakpoints.find? (fun b => b.GetID == id)).getD SBBreakpoint.invalid
  else SBBreakpoint.invalid

/-- Snapshot of the engine instance (`lldb::SBDebugger`). -/
structure SBDebugger where
  valid : Bool
  async : Bool
deriving DecidableEq, Repr

def SBDebugger.IsValid (d : SBDebugger) : Bool := d.valid

end lldb

open lldb

/-- The calls of the controller that change the engine, in the order made.
Queries (state, breakpoint and variable enumeration) are not calls. -/
inductive EngineCall where
  | Create
  | CreateTarget (executable : String)
  | SetAsync (async : Bool)
  | Launch (argv : List String) (tty : Option String)
  | BreakpointCreateByName (name : String)
  | BreakpointCreateByLocation (file : String) (line : Int)
  | ClearAllBreakpointSites (id : Int)
  | BreakpointDelete (id : Int)
  | DeleteAllBreakpoints
  | DeleteAllWatchpoints
  | DeleteTarget
  | Continue
  | HandleCommand (command : String)
  | SendAsyncInterrupt
deriving DecidableEq, Repr

/-- Whether a call is one of the two create-breakpoint operations. -/
def EngineCall.isCreateBreakpoint : EngineCall → Bool
  | EngineCall.BreakpointCreateByName _ => true
  | EngineCall.BreakpointCreateByLocation _ _ => true
  | _ => false

/-- What the world outside the controller decides: the objects the engine
hands back from `SBDebugger::Create`, `CreateTarget` and `Launch`, the
locations a new breakpoint resolves to, the argument vector
`clCommandLineParser` makes of a command line, and the platform the
controller was built for. -/
structure Collaborators where
  Create : SBDebugger
  CreateTarget : String → SBTarget
  Launch : SBTarget → List String → Option String → SBProcess
  ResolveByName : SBTarget → String → List SBBreakpointLocation
  ResolveByLocation : SBTarget → String → Int → List SBBreakpointLocation
  ToArray : String → List String
  wxMac : Bool
  debugServerExists : Bool

/-- Modelled from the spec: `eInterruptReason` of `LLDBProtocol/LLDBEnums.h`,
which is not under src/: None, ApplyBreakpoints, DeleteAllBreakpoints,
DeleteBreakpoint, and a user-requested interrupt. -/
inductive eInterruptReason where
  | kInterruptReasonNone
  | kInterruptReasonApplyBreakpoints
  | kInterruptReasonDeleteAllBreakpoints
  | kInterruptReasonDeleteBreakpoint
  | kInterruptReasonUser
deriving DecidableEq, Repr

/-- Modelled from the spec: the reply type tags of `LLDBProtocol/LLDBEnums.h`,
which is not under src/; the names are the ones the handlers use. -/
inductive eReplyType where
  | kReplyTypeInvalid
  | kReplyTypeAllBreakpointsDeleted
  | kReplyTypeBreakpointsUpdated
  | kReplyTypeDebuggerExited
  | kReplyTypeDebuggerRunning
  | kReplyTypeDebuggerStartedSuccessfully
  | kReplyTypeDebuggerStopped
  | kReplyTypeDebuggerStoppedOnFirstEntry
  | kReplyTypeLocalsUpdated
  | kReplyTypeVariableExpanded
deriving DecidableEq, Repr

/-- Breakpoint kinds of `LLDBBreakpoint`. -/
inductive eBreakpointType where
  | kInvalid
  | kFileLine
  | kFunction
  | kLocation
deriving DecidableEq, Repr

/-- Modelled from the spec: `LLDBBreakpoint` of `LLDBProtocol`, which is not
under src/: an id (the sentinel before application), a type, a function name,
a file name, a line number and an ordered sequence of children. -/
structure LLDBBreakpoint where
  m_id : Int
  m_type : eBreakpointType
  m_name : String
  m_filename : String
  m_lineNumber : Int
  m_children : List LLDBBreakpoint
deriving Repr

/-- Modelled from the spec: a freshly constructed `LLDBBreakpoint` has no id. -/
def LLDBBreakpoint.new : LLDBBreakpoint :=
  { m_id := wxNOT_FOUND, m_type := eBreakpointType.kInvalid, m_name := "",
    m_filename := "", m_lineNumber := wxNOT_FOUND, m_children := [] }

/-- Modelled from the spec: a breakpoint is applied iff its id is valid. -/
def LLDBBreakpoint.IsApplied (b : LLDBBreakpoint) : Bool := b.m_id != wxNOT_FOUND

/-- Modelled from the spec: `LLDBLocalVariable` of `LLDBProtocol`, which is
not under src/: the descriptor built from an engine value, carrying its
handle, display name, type name, value string and child count. -/
structure LLDBLocalVariable where
  m_lldbId : Int
  m_name : String
  m_type : String
  m_value : String
  m_numChildren : Int
deriving DecidableEq, Repr

/-- The descriptor `LLDBLocalVariable(value)` wraps around an engine value. -/
def LLDBLocalVariable.ofValue (v : SBValue) : LLDBLocalVariable :=
  { m_lldbId := v.GetID, m_name := v.name, m_type := v.typeName, m_value := v.value,
    m_numChildren := v.GetNumChildren }

/-- The backtrace `LLDBBacktrace bt(thread)` is built from a thread. -/
structure LLDBBacktrace where
  thread : SBThread
deriving Repr

/-- Modelled from the spec: `LLDBReply` of `LLDBProtocol`, which is not under
src/: a type tag with the payload fields the handlers set. -/
structure LLDBReply where
  m_replyType : eReplyType
  m_interruptResaon : eInterruptReason
  m_line : Int
  m_filename : String
  m_breakpoints : List LLDBBreakpoint
  m_locals : List LLDBLocalVariable
  m_lldbId : Int
  m_backtrace : LLDBBacktrace
deriving Repr

/-- A freshly constructed reply, before any setter ran. -/
def LLDBReply.new : LLDBReply :=
  { m_replyType := eReplyType.kReplyTypeInvalid,
    m_interruptResaon := eInterruptReason.kInterruptReasonNone,
    m_line := wxNOT_FOUND, m_filename := "", m_breakpoints := [], m_locals := [],
    m_lldbId := wxNOT_FOUND, m_backtrace := { thread := SBThread.invalid } }

/-- Modelled from the spec: `LLDBCommand` of `LLDBProtocol`, which is not
under src/: the payload the handlers read. -/
structure LLDBCommand where
  m_workingDirectory : String
  m_executable : String
  m_commandArguments : String
  m_redirectTTY : String
  m_breakpoints : List LLDBBreakpoint
  m_interruptReason : eInterruptReason
  m_lldbId : Int
deriving Repr

/-- A command with an empty payload. -/
def LLDBCommand.new : LLDBCommand :=
  { m_workingDirectory := "", m_executable := "", m_commandArguments := "",
    m_redirectTTY := "", m_breakpoints := [],
    m_interruptReason := eInterruptReason.kInterruptReasonNone, m_lldbId := wxNOT_FOUND }

/-- The full path `wxFileName(directory, filename).GetFullPath()` yields. -/
def wxFileName.GetFullPath (directory filename : String) : String :=
  if directory.isEmpty then filename else directory ++ "/" ++ filename

/-- The variable cache `std::map<int, lldb::SBValue>`, as an association list
without repeated keys. -/
abbrev VariableMap := List (Int × SBValue)

/-- Lookup of a key, `std::map::find`. -/
def VariableMap.find (m : VariableMap) (key : Int) : Option SBValue :=
  m.lookup key

/-- Insertion `std::map::insert`: a key that is present keeps its value. -/
def VariableMap.insert (m : VariableMap) (key : Int) (v : SBValue) : VariableMap :=
  match m.lookup key with
  | some _ => m
  | none => m ++ [(key, v)]

/-- The state of the controller: the members of `CodeLiteLLDBApp` the handlers
read or write, the working directory of the process, and the two ghost
sequences `sent` (replies passed to `SendReply`) and `engineCalls`. -/
structure CodeLiteLLDBApp where
  m_networkThread : Bool
  m_lldbProcessEventThread : Bool
  m_debuggeePid : Int
  m_interruptReason : eInterruptReason
  m_exitMainLoop : Bool
  m_debugger : SBDebugger
  m_target : SBTarget
  m_variables : VariableMap
  cwd : String
  sent : List LLDBReply
  engineCalls : List EngineCall
deriving Repr

namespace CodeLiteLLDBApp

/-- Records a call on the engine. -/
def call (self : CodeLiteLLDBApp) (c : EngineCall) : CodeLiteLLDBApp :=
  { self with engineCalls := self.engineCalls ++ [c] }

def SendReply (self : CodeLiteLLDBApp) (reply : LLDBReply) : CodeLiteLLDBApp :=
  { self with sent := self.sent ++ [reply] }

def IsDebugSessionInProgress (self : CodeLiteLLDBApp) : Bool :=
  self.m_debugger.IsValid && self.m_target.IsValid

def CanInteract (self : CodeLiteLLDBApp) : Bool :=
  self.IsDebugSessionInProgress &&
    (self.m_target.GetProcess.GetState == StateType.eStateStopped)

end CodeLiteLLDBApp

namespace lldb

/-- Modelled from the spec: the engine creates one breakpoint, with the next
free id and the locations it resolves to; an invalid target creates none. -/
def SBTarget.BreakpointCreate (t : SBTarget) (locations : List SBBreakpointLocation) : SBTarget :=
  if t.valid then
    { t with
      breakpoints := t.breakpoints ++
        [{ valid := true, id := t.nextBreakpointID, locations := locations }],
      nextBreakpointID := t.nextBreakpointID + 1 }
  else t

def SBTarget.BreakpointCreateByName (E : Collaborators) (t : SBTarget) (name : String) :
    SBTarget :=
  t.BreakpointCreate (E.ResolveByName t name)

def SBTarget.BreakpointCreateByLocation (E : Collaborators) (t : SBTarget) (file : String)
    (line : Int) : SBTarget :=
  t.BreakpointCreate (E.ResolveByLocation t file line)

/-- Removal of the breakpoint with the given id from the target. -/
def SBTarget.BreakpointDelete (t : SBTarget) (id : Int) : SBTarget :=
  if t.valid then { t with breakpoints := t.breakpoints.filter (fun b => b.GetID != id) }
  else t

def SBTarget.DeleteAllBreakpoints (t : SBTarget) : SBTarget :=
  if t.valid then { t with breakpoints := [] } else t

def SBTarget.DeleteAllWatchpoints (t : SBTarget) : SBTarget :=
  if t.valid then { t with watchpoints := [] } else t

/-- The process a launch hands back: an invalid target launches nothing. -/
def SBTarget.Launch (E : Collaborators) (t : SBTarget) (argv : List String)
    (tty : Option String) : SBProcess :=
  if t.valid then E.Launch t argv tty else SBProcess.invalid

/-- The target after a launch that handed back `p`. -/
def SBTarget.launched (t : SBTarget) (p : SBProcess) : SBTarget :=
  if t.valid && p.valid then { t with process := p } else t

def SBDebugger.CreateTarget (E : Collaborators) (d : SBDebugger) (executable : String) :
    SBTarget :=
  if d.valid then E.CreateTarget executable else SBTarget.invalid

def SBDebugger.SetAsync (d : SBDebugger) (b : Bool) : SBDebugger :=
  if d.valid then { d with async := b } else d

/-- The target handle after `DeleteTarget`: a valid debugger destroys a valid
target and clears the handle. -/
def SBDebugger.DeleteTarget (d : SBDebugger) (t : SBTarget) : SBTarget :=
  if d.valid && t.valid then SBTarget.invalid else t

end lldb

namespace CodeLiteLLDBApp

def Cleanup (self : CodeLiteLLDBApp) : CodeLiteLLDBApp :=
  let self := { self with m_variables := [] }
  let self := { self with m_networkThread := false }
  let self := { self with m_lldbProcessEventThread := false }
  let self := { self with m_interruptReason := eInterruptReason.kInterruptReasonNone }
  let self := { self with m_debuggeePid := wxNOT_FOUND }
  if self.m_target.IsValid then
    let self := { self.call EngineCall.DeleteAllBreakpoints with
      m_target := self.m_target.DeleteAllBreakpoints }
    let self := { self.call EngineCall.DeleteAllWatchpoints with
      m_target := self.m_target.DeleteAllWatchpoints }
    { self.call EngineCall.DeleteTarget with
      m_target := self.m_debugger.DeleteTarget self.m_target }
  else self

def NotifyAllBreakpointsDeleted (self : CodeLiteLLDBApp) : CodeLiteLLDBApp :=
  self.SendReply
    { LLDBReply.new with m_replyType := eReplyType.kReplyTypeAllBreakpointsDeleted }

/-- The child breakpoint made for one location of a multi-location breakpoint. -/
def locationChild (loc : SBBreakpointLocation) : LLDBBreakpoint :=
  let new_bp := LLDBBreakpoint.new
  let new_bp := { new_bp with m_type := eBreakpointType.kLocation }
  let new_bp := { new_bp with
    m_filename := wxFileName.GetFullPath loc.directory loc.filename }
  let new_bp := { new_bp with m_lineNumber := loc.line }
  { new_bp with m_name := loc.functionName }

/-- The entry `NotifyBreakpointsUpdated` builds for one valid engine breakpoint. -/
def mainBreakpoint (bp : SBBreakpoint) : LLDBBreakpoint :=
  let mainBreakpoint := { LLDBBreakpoint.new with m_id := bp.GetID }
  if bp.GetNumLocations > 1 then
    (List.range bp.GetNumLocations).foldl
      (fun (m : LLDBBreakpoint) i =>
        { m with m_children := m.m_children ++ [locationChild (bp.GetLocationAtIndex i)] })
      mainBreakpoint
  else
    let loc := bp.GetLocationAtIndex 0
    let mainBreakpoint := { mainBreakpoint with m_type := eBreakpointType.kFileLine }
    let mainBreakpoint := { mainBreakpoint with m_name := loc.functionName }
    let mainBreakpoint := { mainBreakpoint with
      m_filename := wxFileName.GetFullPath loc.directory loc.filename }
    { mainBreakpoint with m_lineNumber := loc.line }

/-- The list `NotifyBreakpointsUpdated` collects from the target, by index. -/
def collectBreakpoints (target : SBTarget) : List LLDBBreakpoint :=
  (List.range target.GetNumBreakpoints).foldl
    (fun breakpoints i =>
      let bp := target.GetBreakpointAtIndex i
      if bp.IsValid then breakpoints ++ [mainBreakpoint bp] else breakpoints)
    []

def NotifyBreakpointsUpdated (self : CodeLiteLLDBApp) : CodeLiteLLDBApp :=
  let breakpoints := collectBreakpoints self.m_target
  let reply := { LLDBReply.new with m_replyType := eReplyType.kReplyTypeBreakpointsUpdated }
  let reply := { reply with m_breakpoints := breakpoints }
  self.SendReply reply

def NotifyExited (self : CodeLiteLLDBApp) : CodeLiteLLDBApp :=
  let self := self.SendReply
    { LLDBReply.new with m_replyType := eReplyType.kReplyTypeDebuggerExited }
  let self := self.Cleanup
  { self with m_exitMainLoop := true }

def NotifyRunning (self : CodeLiteLLDBApp) : CodeLiteLLDBApp :=
  let self := { self with m_variables := [] }
  self.SendReply { LLDBReply.new with m_replyType := eReplyType.kReplyTypeDebuggerRunning }

def NotifyStarted (self : CodeLiteLLDBApp) : CodeLiteLLDBApp :=
  let self := { self with m_variables := [] }
  self.SendReply
    { LLDBReply.new with m_replyType := eReplyType.kReplyTypeDebuggerStartedSuccessfully }

def NotifyStopped (self : CodeLiteLLDBApp) : CodeLiteLLDBApp :=
  let self := { self with m_variables := [] }
  let reply := { LLDBReply.new with m_replyType := eReplyType.kReplyTypeDebuggerStopped }
  let reply := { reply with m_interruptResaon := self.m_interruptReason }
  let thread := self.m_target.GetProcess.GetSelectedThread
  let reply := { reply with m_backtrace := { thread := thread } }
  let reply :=
    if thread.IsValid && thread.GetSelectedFrame.IsValid then
      let frame := thread.GetSelectedFrame
      let lineEntry := thread.GetSelectedFrame.GetLineEntry
      if lineEntry.valid then
        let reply := { reply with m_line := lineEntry.line }
        { reply with
          m_filename :=
            wxFileName.GetFullPath frame.GetLineEntry.directory frame.GetLineEntry.filename }
      else reply
    else reply
  let self := self.SendReply reply
  { self with m_interruptReason := eInterruptReason.kInterruptReasonNone }

def NotifyStoppedOnFirstEntry (self : CodeLiteLLDBApp) : CodeLiteLLDBApp :=
  let self := { self with m_variables := [] }
  self.SendReply
    { LLDBReply.new with m_replyType := eReplyType.kReplyTypeDebuggerStoppedOnFirstEntry }

def StartDebugger (E : Collaborators) (self : CodeLiteLLDBApp) (command : LLDBCommand) :
    CodeLiteLLDBApp :=
  if self.IsDebugSessionInProgress then self
  else
    let self :=
      if !command.m_workingDirectory.isEmpty then
        { self with cwd := command.m_workingDirectory }
      else self
    if E.wxMac && !E.debugServerExists then self.Cleanup
    else
      let self := { self with m_debuggeePid := wxNOT_FOUND }
      let self := { self.call EngineCall.Create with m_debugger := E.Create }
      let self := { self.call (EngineCall.CreateTarget command.m_executable) with
        m_target := self.m_debugger.CreateTarget E command.m_executable }
      let self := { self.call (EngineCall.SetAsync true) with
        m_debugger := self.m_debugger.SetAsync true }
      let self := { self with m_lldbProcessEventThread := true }
      let self := { self with m_interruptReason := eInterruptReason.kInterruptReasonNone }
      self.NotifyStarted

def RunDebugger (E : Collaborators) (self : CodeLiteLLDBApp) (command : LLDBCommand) :
    CodeLiteLLDBApp :=
  if self.m_debuggeePid != wxNOT_FOUND then self
  else if self.m_debugger.IsValid then
    let self := { self with m_variables := [] }
    let argv := E.ToArray command.m_commandArguments
    let ptty := if command.m_redirectTTY.isEmpty then none else some command.m_redirectTTY
    let process := self.m_target.Launch E argv ptty
    let self := { self.call (EngineCall.Launch argv ptty) with
      m_target := self.m_target.launched process }
    if !process.IsValid then self.NotifyExited
    else
      let self := { self with m_debuggeePid := process.GetProcessID }
      self.NotifyRunning
  else self

/-- One turn of the loop of `ApplyBreakpoints` over the front breakpoint. -/
def applyBreakpoint (E : Collaborators) (self : CodeLiteLLDBApp) (breakPoint : LLDBBreakpoint) :
    CodeLiteLLDBApp :=
  if !breakPoint.IsApplied then
    match breakPoint.m_type with
    | eBreakpointType.kFunction =>
      { self.call (EngineCall.BreakpointCreateByName breakPoint.m_name) with
        m_target := self.m_target.BreakpointCreateByName E breakPoint.m_name }
    | eBreakpointType.kFileLine =>
      { self.call
          (EngineCall.BreakpointCreateByLocation breakPoint.m_filename breakPoint.m_lineNumber) with
        m_target :=
          self.m_target.BreakpointCreateByLocation E breakPoint.m_filename
            breakPoint.m_lineNumber }
    | _ => self
  else self

/-- The loop of `ApplyBreakpoints`: the front breakpoint is handled and erased
until the list is empty. -/
def applyLoop (E : Collaborators) (self : CodeLiteLLDBApp) :
    List LLDBBreakpoint → CodeLiteLLDBApp
  | [] => self
  | breakPoint :: breakpoints => applyLoop E (applyBreakpoint E self breakPoint) breakpoints

def ApplyBreakpoints (E : Collaborators) (self : CodeLiteLLDBApp) (command : LLDBCommand) :
    CodeLiteLLDBApp :=
  if self.m_target.GetProcess.GetState == StateType.eStateStopped then
    let breakpoints := command.m_breakpoints
    let self := applyLoop E self breakpoints
    self.NotifyBreakpointsUpdated
  else
    let self := { self with
      m_interruptReason := eInterruptReason.kInterruptReasonApplyBreakpoints }
    self.call EngineCall.SendAsyncInterrupt

def Continue (self : CodeLiteLLDBApp) (_command : LLDBCommand) : CodeLiteLLDBApp :=
  if !self.IsDebugSessionInProgress then self
  else self.call EngineCall.Continue

def StopDebugger (self : CodeLiteLLDBApp) (_command : LLDBCommand) : CodeLiteLLDBApp :=
  if !self.IsDebugSessionInProgress then self
  else
    let self := self.NotifyExited
    self.Cleanup

def DeleteAllBreakpoints (self : CodeLiteLLDBApp) (_command : LLDBCommand) : CodeLiteLLDBApp :=
  if !self.IsDebugSessionInProgress then self
  else if self.m_target.GetProcess.GetState == StateType.eStateStopped then
    let self := { self.call EngineCall.DeleteAllBreakpoints with
      m_target := self.m_target.DeleteAllBreakpoints }
    self.NotifyAllBreakpointsDeleted
  else
    let self := { self with
      m_interruptReason := eInterruptReason.kInterruptReasonDeleteAllBreakpoints }
    self.call EngineCall.SendAsyncInterrupt

/-- One turn of the loop of `DeleteBreakpoints`. -/
def deleteBreakpoint (self : CodeLiteLLDBApp) (breakpoint : LLDBBreakpoint) : CodeLiteLLDBApp :=
  if breakpoint.IsApplied then
    let lldbBreakpoint := self.m_target.FindBreakpointByID breakpoint.m_id
    if lldbBreakpoint.IsValid then
      let self := self.call (EngineCall.ClearAllBreakpointSites lldbBreakpoint.GetID)
      { self.call (EngineCall.BreakpointDelete lldbBreakpoint.GetID) with
        m_target := self.m_target.BreakpointDelete lldbBreakpoint.GetID }
    else self
  else self

def DeleteBreakpoints (self : CodeLiteLLDBApp) (command : LLDBCommand) : CodeLiteLLDBApp :=
  if !self.IsDebugSessionInProgress then self
  else
    let bps := command.m_breakpoints
    if bps.isEmpty then self
    else if self.m_target.GetProcess.GetState == StateType.eStateStopped then
      let self := bps.foldl deleteBreakpoint self
      self.NotifyBreakpointsUpdated
    else
      let self := { self with
        m_interruptReason := eInterruptReason.kInterruptReasonDeleteBreakpoint }
      self.call EngineCall.SendAsyncInterrupt

def Next (self : CodeLiteLLDBApp) (_command : LLDBCommand) : CodeLiteLLDBApp :=
  if !self.IsDebugSessionInProgress then self
  else self.call (EngineCall.HandleCommand "next")

def StepIn (self : CodeLiteLLDBApp) (_command : LLDBCommand) : CodeLiteLLDBApp :=
  if !self.IsDebugSessionInProgress then self
  else self.call (EngineCall.HandleCommand "step")

def StepOut (self : CodeLiteLLDBApp) (_command : LLDBCommand) : CodeLiteLLDBApp :=
  if !self.IsDebugSessionInProgress then self
  else self.call (EngineCall.HandleCommand "finish")

def Interrupt (self : CodeLiteLLDBApp) (command : LLDBCommand) : CodeLiteLLDBApp :=
  let self := { self with m_interruptReason := command.m_interruptReason }
  self.call EngineCall.SendAsyncInterrupt

def NotifyLocals (self : CodeLiteLLDBApp) (locals : List LLDBLocalVariable) : CodeLiteLLDBApp :=
  let reply := { LLDBReply.new with m_replyType := eReplyType.kReplyTypeLocalsUpdated }
  let reply := { reply with m_locals := locals }
  self.SendReply reply

/-- One turn of a loop that collects the valid values among `value`s: the
value is entered into the cache under its id and its descriptor is appended. -/
def collectValue (acc : VariableMap × List LLDBLocalVariable) (value : SBValue) :
    VariableMap × List LLDBLocalVariable :=
  if value.IsValid then
    (acc.1.insert value.GetID value, acc.2 ++ [LLDBLocalVariable.ofValue value])
  else acc

def LocalVariables (self : CodeLiteLLDBApp) (_command : LLDBCommand) : CodeLiteLLDBApp :=
  let locals : List LLDBLocalVariable := []
  let frame := self.m_target.GetProcess.GetSelectedThread.GetSelectedFrame
  let self := if !frame.IsValid then self.NotifyLocals locals else self
  let args := frame.GetVariables
  let r := (List.range args.length).foldl
    (fun acc i => collectValue acc (args.getD i SBValue.invalid))
    (self.m_variables, locals)
  let self := { self with m_variables := r.1 }
  self.NotifyLocals r.2

def MAX_ARRAY_SIZE : Int := 50

def ExpandVariable (self : CodeLiteLLDBApp) (command : LLDBCommand) : CodeLiteLLDBApp :=
  let variableId := command.m_lldbId
  if variableId == wxNOT_FOUND then self
  else
    match self.m_variables.find variableId with
    | some value =>
      let size := value.GetNumChildren
      let typeClass := value.GetTypeClass
      let size :=
        if typeClass == TypeClass.eTypeClassArray then
          (if size > MAX_ARRAY_SIZE then MAX_ARRAY_SIZE else size)
        else size
      let r := (List.range size.toNat).foldl
        (fun acc i => collectValue acc (value.GetChildAtIndex i))
        (self.m_variables, ([] : List LLDBLocalVariable))
      let self := { self with m_variables := r.1 }
      let reply := { LLDBReply.new with m_replyType := eReplyType.kReplyTypeVariableExpanded }
      let reply := { reply with m_locals := r.2 }
      let reply := { reply with m_lldbId := variableId }
      self.SendReply reply
    | none => self

end CodeLiteLLDBApp

/-! ## Concrete collaborators, states and commands -/

/-- An engine that resolves every breakpoint to one location in `main`, whose
launches fail, and whose targets come up valid and empty. -/
def sampleCollaborators : Collaborators :=
  { Create := { valid := true, async := false },
    CreateTarget := fun executable => { SBTarget.invalid with valid := true, executable := executable },
    Launch := fun _ _ _ => SBProcess.invalid,
    ResolveByName := fun _ name =>
      [{ directory := "", filename := "main.c", line := 1, functionName := name }],
    ResolveByLocation := fun _ file line =>
      [{ directory := "", filename := file, line := line, functionName := "main" }],
    ToArray := fun arguments => if arguments.isEmpty then [] else [arguments],
    wxMac := false,
    debugServerExists := true }

/-- An engine like `sampleCollaborators` whose launch yields process 4242,
stopped at entry. -/
def launchingCollaborators : Collaborators :=
  { sampleCollaborators with
    Launch := fun _ _ _ =>
      { valid := true, pid := 4242, state := StateType.eStateStopped,
        selectedThread := SBThread.invalid } }

/-- The controller as its constructor leaves it: an engine instance, no
target, no pid, no pending interrupt. -/
def idleApp : CodeLiteLLDBApp :=
  { m_networkThread := false, m_lldbProcessEventThread := false,
    m_debuggeePid := wxNOT_FOUND,
    m_interruptReason := eInterruptReason.kInterruptReasonNone,
    m_exitMainLoop := false,
    m_debugger := { valid := true, async := false },
    m_target := SBTarget.invalid,
    m_variables := [], cwd := "/", sent := [], engineCalls := [] }

/-- A process with the given state and no selected thread. -/
def sampleProcess (state : StateType) : SBProcess :=
  { valid := true, pid := 4242, state := state, selectedThread := SBThread.invalid }

/-- A session in progress over `/bin/echo` whose process has the given state;
the engine holds no breakpoint. -/
def sessionApp (state : StateType) : CodeLiteLLDBApp :=
  { idleApp with
    m_networkThread := true, m_lldbProcessEventThread := true,
    m_debuggeePid := 4242,
    m_debugger := { valid := true, async := true },
    m_target :=
      { valid := true, executable := "/bin/echo", process := sampleProcess state,
        breakpoints := [], watchpoints := [], nextBreakpointID := 1 } }

/-- The request of the scenario: one unapplied `kFileLine` breakpoint at `a.c:10`. -/
def fileLineCommand : LLDBCommand :=
  { LLDBCommand.new with
    m_breakpoints :=
      [{ LLDBBreakpoint.new with
          m_type := eBreakpointType.kFileLine, m_filename := "a.c", m_lineNumber := 10 }] }

/-- An interrupt request of the user. -/
def userInterruptCommand : LLDBCommand :=
  { LLDBCommand.new with m_interruptReason := eInterruptReason.kInterruptReasonUser }


/-- The controller as constructed, had the engine failed to come up. -/
def noEngineApp : CodeLiteLLDBApp :=
  { idleApp with m_debugger := { valid := false, async := false } }

/-- The create-breakpoint call a requested breakpoint asks for: one call when
it is not applied and is of kind `kFunction` or `kFileLine`, else none. -/
def createCall (b : LLDBBreakpoint) : Option EngineCall :=
  if b.IsApplied then none
  else
    match b.m_type with
    | eBreakpointType.kFunction => some (EngineCall.BreakpointCreateByName b.m_name)
    | eBreakpointType.kFileLine =>
      some (EngineCall.BreakpointCreateByLocation b.m_filename b.m_lineNumber)
    | _ => none

/-- The create-breakpoint calls a request list asks for, in list order. -/
def createCalls (bps : List LLDBBreakpoint) : List EngineCall :=
  bps.filterMap createCall

/-- The scenario request applied once to a stopped session without breakpoints. -/
def appliedOnce : CodeLiteLLDBApp :=
  CodeLiteLLDBApp.ApplyBreakpoints sampleCollaborators (sessionApp StateType.eStateStopped)
    fileLineCommand

/-- The same request applied a second time. -/
def appliedTwice : CodeLiteLLDBApp :=
  CodeLiteLLDBApp.ApplyBreakpoints sampleCollaborators appliedOnce fileLineCommand

/-- The BreakpointsUpdated reply that lists the breakpoints of a target. -/
def breakpointsUpdatedReply (t : SBTarget) : LLDBReply :=
  { LLDBReply.new with
    m_replyType := eReplyType.kReplyTypeBreakpointsUpdated,
    m_breakpoints := CodeLiteLLDBApp.collectBreakpoints t }

/-- The number of children the expansion of a value lists when all its
children are valid: at most 50 of an array, all of anything else. -/
def expandLength (value : SBValue) : Nat :=
  if value.GetTypeClass = TypeClass.eTypeClassArray then min value.children.length 50
  else value.children.length

/-- A valid scalar value with the given id. -/
def sampleChild (id : Nat) : SBValue :=
  { valid := true, id := id, name := "item", typeName := "int", value := "0",
    typeClass := TypeClass.eTypeClassBuiltin, children := [] }

/-- An array value, handle 7, with 200 valid children. -/
def arrayValue : SBValue :=
  { valid := true, id := 7, name := "numbers", typeName := "int [200]", value := "",
    typeClass := TypeClass.eTypeClassArray,
    children := (List.range 200).map (fun i => sampleChild (1000 + i)) }

/-- A struct value, handle 8, with 200 valid fields. -/
def structValue : SBValue :=
  { valid := true, id := 8, name := "record", typeName := "wide_t", value := "",
    typeClass := TypeClass.eTypeClassStruct,
    children := (List.range 200).map (fun i => sampleChild (2000 + i)) }

/-- A stopped session whose cache holds the array and the struct. -/
def cachedApp : CodeLiteLLDBApp :=
  { sessionApp StateType.eStateStopped with
    m_variables := [(7, arrayValue), (8, structValue)] }

/-- The request to expand the handle `id`. -/
def expandCommand (id : Int) : LLDBCommand :=
  { LLDBCommand.new with m_lldbId := id }

/-- The scenario request issued while the process runs: it is deferred. -/
def deferredApp : CodeLiteLLDBApp :=
  CodeLiteLLDBApp.ApplyBreakpoints sampleCollaborators (sessionApp StateType.eStateRunning)
    fileLineCommand

/-- The deferred state once the engine has stopped the process. -/
def stoppedAfterInterrupt : CodeLiteLLDBApp :=
  { deferredApp with
    m_target := { deferredApp.m_target with process := sampleProcess StateType.eStateStopped } }

/-- The argument vector `RunDebugger` builds from a command. -/
def launchArgv (E : Collaborators) (c : LLDBCommand) : List String :=
  E.ToArray c.m_commandArguments

/-- The tty `RunDebugger` redirects to, if any. -/
def launchTTY (c : LLDBCommand) : Option String :=
  if c.m_redirectTTY.isEmpty then none else some c.m_redirectTTY

/-- The process the launch of `RunDebugger` hands back in a state. -/
def launchOf (E : Collaborators) (s : CodeLiteLLDBApp) (c : LLDBCommand) : SBProcess :=
  s.m_target.Launch E (launchArgv E c) (launchTTY c)

/-- A reply that carries nothing but its type. -/
def plainReply (t : eReplyType) : LLDBReply :=
  { LLDBReply.new with m_replyType := t }

/-- A session whose target is created and not yet launched. -/
def startedApp : CodeLiteLLDBApp :=
  { sessionApp StateType.eStateInvalid with
    m_debuggeePid := wxNOT_FOUND,
    m_target := { SBTarget.invalid with valid := true, executable := "/bin/echo" } }

/-- The request to run with the argument `hi`. -/
def runCommand : LLDBCommand :=
  { LLDBCommand.new with m_commandArguments := "hi" }

/-- Whether a call is a launch. -/
def EngineCall.isLaunch : EngineCall → Bool
  | EngineCall.Launch _ _ => true
  | _ => false

namespace lldb

/-- The valid breakpoints of the engine's breakpoint set, in index order. -/
def SBTarget.validBreakpoints (t : SBTarget) : List SBBreakpoint :=
  if t.valid then t.breakpoints.filter (fun b => b.IsValid) else []

end lldb

/-- An engine breakpoint that resolved to three locations. -/
def inlinedBreakpoint : SBBreakpoint :=
  { valid := true, id := 3,
    locations :=
      [{ directory := "/src", filename := "a.c", line := 10, functionName := "f" },
       { directory := "/src", filename := "b.c", line := 20, functionName := "g" },
       { directory := "/src", filename := "c.c", line := 30, functionName := "h" }] }

/-- The command handlers a queue entry can refer to (`CommandFunc_t`). -/
inductive CommandFunc_t where
  | StartDebugger
  | RunDebugger
  | ApplyBreakpoints
  | DeleteBreakpoints
  | DeleteAllBreakpoints
  | Continue
  | Next
  | StepIn
  | StepOut
  | StopDebugger
  | Interrupt
  | LocalVariables
  | ExpandVariable
deriving DecidableEq, Repr

/-- The notification handlers a queue entry can refer to (`NotifyFunc_t`). -/
inductive NotifyFunc_t where
  | NotifyAllBreakpointsDeleted
  | NotifyBreakpointsUpdated
  | NotifyExited
  | NotifyRunning
  | NotifyStarted
  | NotifyStopped
  | NotifyStoppedOnFirstEntry
deriving DecidableEq, Repr

/-- The call `(this->*pFunc)(command)`. -/
def CommandFunc_t.run (E : Collaborators) (pFunc : CommandFunc_t) (self : CodeLiteLLDBApp)
    (command : LLDBCommand) : CodeLiteLLDBApp :=
  match pFunc with
  | CommandFunc_t.StartDebugger => CodeLiteLLDBApp.StartDebugger E self command
  | CommandFunc_t.RunDebugger => CodeLiteLLDBApp.RunDebugger E self command
  | CommandFunc_t.ApplyBreakpoints => CodeLiteLLDBApp.ApplyBreakpoints E self command
  | CommandFunc_t.DeleteBreakpoints => self.DeleteBreakpoints command
  | CommandFunc_t.DeleteAllBreakpoints => self.DeleteAllBreakpoints command
  | CommandFunc_t.Continue => self.Continue command
  | CommandFunc_t.Next => self.Next command
  | CommandFunc_t.StepIn => self.StepIn command
  | CommandFunc_t.StepOut => self.StepOut command
  | CommandFunc_t.StopDebugger => self.StopDebugger command
  | CommandFunc_t.Interrupt => self.Interrupt command
  | CommandFunc_t.LocalVariables => self.LocalVariables command
  | CommandFunc_t.ExpandVariable => self.ExpandVariable command

/-- The call `(this->*notify_func)()`. -/
def NotifyFunc_t.run (notify_func : NotifyFunc_t) (self : CodeLiteLLDBApp) : CodeLiteLLDBApp :=
  match notify_func with
  | NotifyFunc_t.NotifyAllBreakpointsDeleted => self.NotifyAllBreakpointsDeleted
  | NotifyFunc_t.NotifyBreakpointsUpdated => self.NotifyBreakpointsUpdated
  | NotifyFunc_t.NotifyExited => self.NotifyExited
  | NotifyFunc_t.NotifyRunning => self.NotifyRunning
  | NotifyFunc_t.NotifyStarted => self.NotifyStarted
  | NotifyFunc_t.NotifyStopped => self.NotifyStopped
  | NotifyFunc_t.NotifyStoppedOnFirstEntry => self.NotifyStoppedOnFirstEntry

/-- One thing the controller executes: a command with its payload, or a
notification. -/
inductive Dispatch where
  | command (pFunc : CommandFunc_t) (command : LLDBCommand)
  | notify (notify_func : NotifyFunc_t)

/-- Execution of one dispatch. -/
def Dispatch.run (E : Collaborators) (self : CodeLiteLLDBApp) : Dispatch → CodeLiteLLDBApp
  | Dispatch.command pFunc msg => pFunc.run E self msg
  | Dispatch.notify notify_func => notify_func.run self

/-- Whether a dispatch is the LocalVariables command. -/
def Dispatch.isLocalVariables : Dispatch → Bool
  | Dispatch.command CommandFunc_t.LocalVariables _ => true
  | _ => false

/-- A Continue command, a stop notification and an expansion request. -/
def sampleDispatches : List Dispatch :=
  [Dispatch.command CommandFunc_t.Continue LLDBCommand.new,
   Dispatch.notify NotifyFunc_t.NotifyStopped,
   Dispatch.command CommandFunc_t.ExpandVariable (expandCommand 7)]

/-- The frame `LocalVariables` reads: the selected frame of the selected
thread of the target's process. -/
def selectedFrameOf (s : CodeLiteLLDBApp) : SBFrame :=
  s.m_target.GetProcess.GetSelectedThread.GetSelectedFrame

/-- The LocalsUpdated reply that carries a list of descriptors. -/
def localsReply (locals : List LLDBLocalVariable) : LLDBReply :=
  { LLDBReply.new with
    m_replyType := eReplyType.kReplyTypeLocalsUpdated, m_locals := locals }

/-- A frame with an argument, a value the engine could not produce, and a local. -/
def sampleFrame : SBFrame :=
  { valid := true,
    lineEntry := { valid := true, line := 10, directory := "/src", filename := "a.c" },
    vars := [sampleChild 11, SBValue.invalid, sampleChild 12] }

/-- A stopped session whose selected thread has `sampleFrame` selected. -/
def framedApp : CodeLiteLLDBApp :=
  { sessionApp StateType.eStateStopped with
    m_target :=
      { (sessionApp StateType.eStateStopped).m_target with
        process :=
          { valid := true, pid := 4242, state := StateType.eStateStopped,
            selectedThread :=
              { valid := true, selectedFrame := sampleFrame, frames := [sampleFrame] } } } }

/-- A stopped session whose selected frame is valid and has no variable. -/
def emptyFrameApp : CodeLiteLLDBApp :=
  { sessionApp StateType.eStateStopped with
    m_target :=
      { (sessionApp StateType.eStateStopped).m_target with
        process :=
          { valid := true, pid := 4242, state := StateType.eStateStopped,
            selectedThread :=
              { valid := true, selectedFrame := { sampleFrame with vars := [] },
                frames := [] } } } }

/-! ## The dispatch loop -/

/-- An entry of the command queue (`QueueItem_t`): a handler and its command. -/
abbrev QueueItem_t := CommandFunc_t × LLDBCommand

/-- What the dispatch loop works on: the two queues, front first, and the
controller; the ghost field `ran` records what was executed, in order. -/
structure MainLoopState where
  m_commands_queue : List QueueItem_t
  m_notify_queue : List NotifyFunc_t
  app : CodeLiteLLDBApp
  ran : List Dispatch

namespace MainLoopState

/-- A producer posts a command: `CallAfter` appends it to the command queue. -/
def CallAfter (st : MainLoopState) (func : CommandFunc_t) (command : LLDBCommand) :
    MainLoopState :=
  { st with m_commands_queue := st.m_commands_queue ++ [(func, command)] }

/-- A producer posts a notification to the notification queue. -/
def PostNotify (st : MainLoopState) (notify_func : NotifyFunc_t) : MainLoopState :=
  { st with m_notify_queue := st.m_notify_queue ++ [notify_func] }

/-- The first half of an iteration: a command is received from the command
queue, if there is one, and executed. -/
def receiveCommand (E : Collaborators) (st : MainLoopState) : MainLoopState :=
  match st.m_commands_queue with
  | [] => st
  | msg :: rest =>
    let pFunc := msg.1
    let command := msg.2
    { st with
      m_commands_queue := rest,
      app := pFunc.run E st.app command,
      ran := st.ran ++ [Dispatch.command pFunc command] }

/-- The second half of an iteration: a notification is received from the
notification queue, if there is one, and executed. -/
def receiveNotify (st : MainLoopState) : MainLoopState :=
  match st.m_notify_queue with
  | [] => st
  | notify_func :: rest =>
    { st with
      m_notify_queue := rest,
      app := notify_func.run st.app,
      ran := st.ran ++ [Dispatch.notify notify_func] }

/-- The body of the `while` loop of `MainLoop`. The sleep of an iteration that
received nothing changes no state. -/
def iteration (E : Collaborators) (st : MainLoopState) : MainLoopState :=
  receiveNotify (receiveCommand E st)

/-- The `while ( !m_exitMainLoop )` loop of `MainLoop`, run for at most `fuel`
iterations while no producer posts. -/
def whileLoop (E : Collaborators) : Nat → MainLoopState → MainLoopState
  | 0, st => st
  | fuel + 1, st => if st.app.m_exitMainLoop then st else whileLoop E fuel (iteration E st)

end MainLoopState

/-- The outcome of `AcceptNewConnection`: with a client connected the network
thread is started; a socket failure cleans up and is thrown on. -/
def CodeLiteLLDBApp.AcceptNewConnection (connected : Bool) (self : CodeLiteLLDBApp) :
    Except CodeLiteLLDBApp CodeLiteLLDBApp :=
  if connected then Except.ok { self with m_networkThread := true }
  else Except.error self.Cleanup

/-- The function `MainLoop`: the connection is accepted and the loop runs; a
socket failure ends it before the first iteration. -/
def MainLoop (E : Collaborators) (connected : Bool) (fuel : Nat) (st : MainLoopState) :
    MainLoopState :=
  match st.app.AcceptNewConnection connected with
  | Except.ok app => MainLoopState.whileLoop E fuel { st with app := app }
  | Except.error app => { st with app := app }

/-- What happens around the loop: a producer posts a command, a producer posts
a notification, or the loop comes to the head of its next iteration. -/
inductive LoopEvent where
  | CallAfter (func : CommandFunc_t) (command : LLDBCommand)
  | PostNotify (notify_func : NotifyFunc_t)
  | iteration

/-- The effect of one event; at the loop head an iteration begins only while
the exit flag is not set. -/
def LoopEvent.apply (E : Collaborators) (st : MainLoopState) : LoopEvent → MainLoopState
  | LoopEvent.CallAfter func msg => st.CallAfter func msg
  | LoopEvent.PostNotify notify_func => st.PostNotify notify_func
  | LoopEvent.iteration => if st.app.m_exitMainLoop then st else st.iteration E

/-- A run: the events take effect one after the other. -/
def runEvents (E : Collaborators) (st : MainLoopState) (events : List LoopEvent) :
    MainLoopState :=
  events.foldl (LoopEvent.apply E) st

/-- The commands among executed dispatches, in order. -/
def commandsOf (ran : List Dispatch) : List QueueItem_t :=
  ran.filterMap (fun d =>
    match d with
    | Dispatch.command pFunc msg => some (pFunc, msg)
    | Dispatch.notify _ => none)

/-- The notifications among executed dispatches, in order. -/
def notificationsOf (ran : List Dispatch) : List NotifyFunc_t :=
  ran.filterMap (fun d =>
    match d with
    | Dispatch.command _ _ => none
    | Dispatch.notify notify_func => some notify_func)

/-- The commands posted by the events of a run, in order. -/
def postedCommands (events : List LoopEvent) : List QueueItem_t :=
  events.filterMap (fun e =>
    match e with
    | LoopEvent.CallAfter func msg => some (func, msg)
    | _ => none)

/-- The notifications posted by the events of a run, in order. -/
def postedNotifications (events : List LoopEvent) : List NotifyFunc_t :=
  events.filterMap (fun e =>
    match e with
    | LoopEvent.PostNotify notify_func => some notify_func
    | _ => none)

/-- The dispatches one iteration executes: the front command, if any, then the
front notification, if any. -/
def frontDispatches (st : MainLoopState) : List Dispatch :=
  (st.m_commands_queue.head?.map (fun msg => Dispatch.command msg.1 msg.2)).toList ++
    (st.m_notify_queue.head?.map Dispatch.notify).toList

/-- A session with two commands and two notifications waiting. -/
def sampleLoopState : MainLoopState :=
  { m_commands_queue :=
      [(CommandFunc_t.Continue, LLDBCommand.new), (CommandFunc_t.StopDebugger, LLDBCommand.new)],
    m_notify_queue := [NotifyFunc_t.NotifyRunning, NotifyFunc_t.NotifyStopped],
    app := sessionApp StateType.eStateStopped,
    ran := [] }

/-- A run in which a command and a notification are posted between iterations. -/
def sampleEvents : List LoopEvent :=
  [LoopEvent.iteration, LoopEvent.CallAfter CommandFunc_t.Next LLDBCommand.new,
   LoopEvent.PostNotify NotifyFunc_t.NotifyRunning, LoopEvent.iteration, LoopEvent.iteration]

/-- The sample session after two iterations: the second one ran StopDebugger,
which set the exit flag, and then the stop notification. -/
def exitedLoopState : MainLoopState :=
  runEvents sampleCollaborators sampleLoopState [LoopEvent.iteration, LoopEvent.iteration]

/-- An engine like `sampleCollaborators` that fails to come up: `Create` hands
back an invalid instance. -/
def failingCollaborators : Collaborators :=
  { sampleCollaborators with Create := { valid := false, async := false } }

/-- The controller as its constructor leaves it: no threads, no pid, no pending
interrupt, the exit flag down, the engine instance `SBDebugger::Create` handed
back, and a target handle that was never assigned. The ghost sequences start
empty when the constructor returns. -/
def CodeLiteLLDBApp.new (E : Collaborators) (cwd : String) : CodeLiteLLDBApp :=
  { m_networkThread := false, m_lldbProcessEventThread := false,
    m_debuggeePid := wxNOT_FOUND,
    m_interruptReason := eInterruptReason.kInterruptReasonNone,
    m_exitMainLoop := false,
    m_debugger := E.Create,
    m_target := SBTarget.invalid,
    m_variables := [], cwd := cwd, sent := [], engineCalls := [] }

/-- The states the controller can reach: the constructed one, and from a
reachable state the state after any command or notification handler, after a
client connected, after a failed accept cleaned up, and after the engine
changed on its own what the target handle shows (the process, its threads and
frames, the breakpoints) without changing whether the handle is valid. -/
inductive Reachable (E : Collaborators) : CodeLiteLLDBApp → Prop where
  | constructed (cwd : String) : Reachable E (CodeLiteLLDBApp.new E cwd)
  | dispatch (s : CodeLiteLLDBApp) (d : Dispatch) : Reachable E s → Reachable E (d.run E s)
  | connected (s : CodeLiteLLDBApp) : Reachable E s → Reachable E { s with m_networkThread := true }
  | cleanup (s : CodeLiteLLDBApp) : Reachable E s → Reachable E s.Cleanup
  | engine (s : CodeLiteLLDBApp) (t : SBTarget) :
      Reachable E s → t.valid = s.m_target.valid → Reachable E { s with m_target := t }

/-- What holds of every reachable state: a valid target belongs to a valid
engine instance, and without a valid target the variable cache is empty and
no pid is recorded. -/
def SessionInvariant (s : CodeLiteLLDBApp) : Prop :=
  (s.m_target.valid = true → s.m_debugger.valid = true) ∧
  (s.m_target.valid = false → s.m_variables = [] ∧ s.m_debuggeePid = wxNOT_FOUND)
/-! ## Helper lemmas -/

theorem foldl_range_take {α β : Type} (l : List α) (d : α) (f : β → α → β) (init : β) (n : Nat)
    (hn : n ≤ l.length) :
    (List.range n).foldl (fun acc i => f acc (l.getD i d)) init = (l.take n).foldl f init := by
  induction n with
  | zero => simp
  | succ k ih =>
    have hk : k < l.length := hn
    have ht : l.take (k + 1) = l.take k ++ [l.getD k d] := by
      rw [List.take_succ]
      simp [List.getD, List.getElem?_eq_getElem hk]
    rw [List.range_succ, List.foldl_append, ih (Nat.le_of_lt hk), ht, List.foldl_append]
    rfl

theorem foldl_range_getD {α β : Type} (l : List α) (d : α) (f : β → α → β) (init : β) :
    (List.range l.length).foldl (fun acc i => f acc (l.getD i d)) init = l.foldl f init := by
  rw [foldl_range_take l d f init l.length (Nat.le_refl _), List.take_length]

open CodeLiteLLDBApp

/-! ## Applying breakpoints -/

theorem applyBreakpoint_sent (E : Collaborators) (s : CodeLiteLLDBApp) (b : LLDBBreakpoint) :
    (applyBreakpoint E s b).sent = s.sent := by
  unfold applyBreakpoint
  split
  · split <;> rfl
  · rfl

theorem applyBreakpoint_engineCalls (E : Collaborators) (s : CodeLiteLLDBApp)
    (b : LLDBBreakpoint) :
    (applyBreakpoint E s b).engineCalls = s.engineCalls ++ (createCall b).toList := by
  unfold applyBreakpoint createCall
  cases hb : b.IsApplied <;> cases ht : b.m_type <;> simp [call]

theorem applyBreakpoint_noop (E : Collaborators) (s : CodeLiteLLDBApp) (b : LLDBBreakpoint)
    (h : createCall b = none) : applyBreakpoint E s b = s := by
  unfold createCall at h
  unfold applyBreakpoint
  cases hb : b.IsApplied <;> cases ht : b.m_type <;> simp_all

theorem BreakpointCreate_GetProcess (t : SBTarget) (locs : List SBBreakpointLocation) :
    (t.BreakpointCreate locs).GetProcess = t.GetProcess := by
  unfold SBTarget.BreakpointCreate SBTarget.GetProcess
  split <;> simp_all

theorem BreakpointCreate_length (t : SBTarget) (locs : List SBBreakpointLocation)
    (h : t.GetProcess.GetState = StateType.eStateStopped) :
    (t.BreakpointCreate locs).breakpoints.length = t.breakpoints.length + 1 := by
  unfold SBTarget.BreakpointCreate
  cases hv : t.valid
  · simp [SBTarget.GetProcess, hv, SBProcess.GetState, SBProcess.invalid] at h
  · simp

theorem applyBreakpoint_GetProcess (E : Collaborators) (s : CodeLiteLLDBApp)
    (b : LLDBBreakpoint) :
    (applyBreakpoint E s b).m_target.GetProcess = s.m_target.GetProcess := by
  unfold applyBreakpoint
  cases hb : b.IsApplied <;> cases ht : b.m_type <;>
    simp [call, SBTarget.BreakpointCreateByName, SBTarget.BreakpointCreateByLocation,
      BreakpointCreate_GetProcess]

theorem applyBreakpoint_length (E : Collaborators) (s : CodeLiteLLDBApp) (b : LLDBBreakpoint)
    (h : s.m_target.GetProcess.GetState = StateType.eStateStopped) :
    (applyBreakpoint E s b).m_target.breakpoints.length =
      s.m_target.breakpoints.length + (createCall b).toList.length := by
  unfold applyBreakpoint createCall
  cases hb : b.IsApplied <;> cases ht : b.m_type <;>
    simp [call, SBTarget.BreakpointCreateByName, SBTarget.BreakpointCreateByLocation,
      BreakpointCreate_length _ _ h]

theorem applyLoop_sent (E : Collaborators) (bps : List LLDBBreakpoint) (s : CodeLiteLLDBApp) :
    (applyLoop E s bps).sent = s.sent := by
  induction bps generalizing s with
  | nil => rfl
  | cons b rest ih => rw [applyLoop, ih, applyBreakpoint_sent]

theorem applyLoop_engineCalls (E : Collaborators) (bps : List LLDBBreakpoint)
    (s : CodeLiteLLDBApp) :
    (applyLoop E s bps).engineCalls = s.engineCalls ++ createCalls bps := by
  induction bps generalizing s with
  | nil => simp [applyLoop, createCalls]
  | cons b rest ih =>
    rw [applyLoop, ih, applyBreakpoint_engineCalls]
    unfold createCalls
    cases hc : createCall b <;> simp [List.filterMap_cons, hc]

theorem applyLoop_GetProcess (E : Collaborators) (bps : List LLDBBreakpoint)
    (s : CodeLiteLLDBApp) :
    (applyLoop E s bps).m_target.GetProcess = s.m_target.GetProcess := by
  induction bps generalizing s with
  | nil => rfl
  | cons b rest ih => rw [applyLoop, ih, applyBreakpoint_GetProcess]

theorem applyLoop_length (E : Collaborators) (bps : List LLDBBreakpoint) (s : CodeLiteLLDBApp)
    (h : s.m_target.GetProcess.GetState = StateType.eStateStopped) :
    (applyLoop E s bps).m_target.breakpoints.length =
      s.m_target.breakpoints.length + (createCalls bps).length := by
  induction bps generalizing s with
  | nil => simp [applyLoop, createCalls]
  | cons b rest ih =>
    rw [applyLoop, ih _ (by rw [applyBreakpoint_GetProcess]; exact h), applyBreakpoint_length E s b h]
    unfold createCalls
    cases hc : createCall b <;> simp [List.filterMap_cons, hc]
    omega

theorem applyLoop_noop (E : Collaborators) (bps : List LLDBBreakpoint) (s : CodeLiteLLDBApp)
    (h : createCalls bps = []) : applyLoop E s bps = s := by
  induction bps generalizing s with
  | nil => rfl
  | cons b rest ih =>
    unfold createCalls at h
    cases hc : createCall b with
    | none =>
      rw [List.filterMap_cons, hc] at h
      rw [applyLoop, applyBreakpoint_noop E s b hc]
      exact ih s h
    | some c =>
      rw [List.filterMap_cons, hc] at h
      simp at h

theorem ApplyBreakpoints_stopped (E : Collaborators) (s : CodeLiteLLDBApp) (c : LLDBCommand)
    (h : s.m_target.GetProcess.GetState = StateType.eStateStopped) :
    ApplyBreakpoints E s c = (applyLoop E s c.m_breakpoints).NotifyBreakpointsUpdated := by
  unfold ApplyBreakpoints
  simp [h]

theorem NotifyBreakpointsUpdated_target (s : CodeLiteLLDBApp) :
    s.NotifyBreakpointsUpdated.m_target = s.m_target := rfl

theorem NotifyBreakpointsUpdated_sent (s : CodeLiteLLDBApp) :
    s.NotifyBreakpointsUpdated.sent = s.sent ++ [breakpointsUpdatedReply s.m_target] := rfl

theorem NotifyBreakpointsUpdated_engineCalls (s : CodeLiteLLDBApp) :
    s.NotifyBreakpointsUpdated.engineCalls = s.engineCalls := rfl

/-- C2 (as amended): while the process is stopped, each of two ApplyBreakpoints
calls with the same command emits exactly one BreakpointsUpdated reply and
makes one create-breakpoint call for every breakpoint of the command that is
not applied (kind `kFunction` or `kFileLine`), in list order, so the second
call repeats the create calls of the first and the engine's breakpoint set
grows by as many; when no breakpoint of the command asks for a create call
(all are applied), the second call makes no engine call and leaves the
engine's breakpoint set as the first call left it. -/
theorem ApplyBreakpoints_twice_while_stopped (E : Collaborators) (s : CodeLiteLLDBApp)
    (c : LLDBCommand) (h : s.m_target.GetProcess.GetState = StateType.eStateStopped) :
    (ApplyBreakpoints E s c).sent =
      s.sent ++ [breakpointsUpdatedReply (ApplyBreakpoints E s c).m_target] ∧
    (ApplyBreakpoints E (ApplyBreakpoints E s c) c).sent =
      (ApplyBreakpoints E s c).sent ++
        [breakpointsUpdatedReply (ApplyBreakpoints E (ApplyBreakpoints E s c) c).m_target] ∧
    (ApplyBreakpoints E s c).engineCalls = s.engineCalls ++ createCalls c.m_breakpoints ∧
    (ApplyBreakpoints E (ApplyBreakpoints E s c) c).engineCalls =
      (ApplyBreakpoints E s c).engineCalls ++ createCalls c.m_breakpoints ∧
    (ApplyBreakpoints E (ApplyBreakpoints E s c) c).m_target.breakpoints.length =
      (ApplyBreakpoints E s c).m_target.breakpoints.length +
        (createCalls c.m_breakpoints).length ∧
    (createCalls c.m_breakpoints = [] →
      (ApplyBreakpoints E (ApplyBreakpoints E s c) c).engineCalls =
        (ApplyBreakpoints E s c).engineCalls ∧
      (ApplyBreakpoints E (ApplyBreakpoints E s c) c).m_target =
        (ApplyBreakpoints E s c).m_target) := by
  have h1 : (ApplyBreakpoints E s c).m_target.GetProcess.GetState = StateType.eStateStopped := by
    rw [ApplyBreakpoints_stopped E s c h, NotifyBreakpointsUpdated_target, applyLoop_GetProcess]
    exact h
  have e1 := ApplyBreakpoints_stopped E s c h
  have e2 := ApplyBreakpoints_stopped E (ApplyBreakpoints E s c) c h1
  refine ⟨?_, ?_, ?_, ?_, ?_, ?_⟩
  · rw [e1, NotifyBreakpointsUpdated_sent, NotifyBreakpointsUpdated_target, applyLoop_sent]
  · rw [e2, NotifyBreakpointsUpdated_sent, NotifyBreakpointsUpdated_target, applyLoop_sent]
  · rw [e1, NotifyBreakpointsUpdated_engineCalls, applyLoop_engineCalls]
  · rw [e2, NotifyBreakpointsUpdated_engineCalls, applyLoop_engineCalls]
  · rw [e2, NotifyBreakpointsUpdated_target, applyLoop_length E _ _ h1]
  · intro hc
    rw [e2, NotifyBreakpointsUpdated_engineCalls, NotifyBreakpointsUpdated_target,
      applyLoop_noop E _ _ hc]
    exact ⟨rfl, rfl⟩

/-- Witness of C2 (as amended): the scenario request applied twice to a stopped session. -/
theorem ApplyBreakpoints_twice_while_stopped_witness :
    (sessionApp StateType.eStateStopped).m_target.GetProcess.GetState =
      StateType.eStateStopped ∧
    appliedTwice.engineCalls = appliedOnce.engineCalls ++ createCalls fileLineCommand.m_breakpoints :=
  ⟨rfl, (ApplyBreakpoints_twice_while_stopped sampleCollaborators
    (sessionApp StateType.eStateStopped) fileLineCommand rfl).2.2.2.1⟩

/-- C2 fails as stated: the scenario request (one unapplied `kFileLine`
breakpoint) applied twice in a row to a stopped session makes a create call
in the second call too, and the engine then holds two breakpoints, not one. -/
theorem ApplyBreakpoints_same_command_creates_again :
    (sessionApp StateType.eStateStopped).m_target.GetProcess.GetState =
      StateType.eStateStopped ∧
    appliedOnce.engineCalls = [EngineCall.BreakpointCreateByLocation "a.c" 10] ∧
    appliedTwice.engineCalls =
      [EngineCall.BreakpointCreateByLocation "a.c" 10,
       EngineCall.BreakpointCreateByLocation "a.c" 10] ∧
    appliedOnce.m_target.breakpoints.length = 1 ∧
    appliedTwice.m_target.breakpoints.length = 2 ∧
    appliedTwice.m_target.breakpoints ≠ appliedOnce.m_target.breakpoints := by
  refine ⟨rfl, rfl, rfl, rfl, rfl, ?_⟩
  intro h
  exact absurd (congrArg List.length h) (by decide)

/-- C5: when the process is not stopped, ApplyBreakpoints only records the
pending interrupt reason ApplyBreakpoints and sends one asynchronous
interrupt: it emits no reply, makes no create-breakpoint call, and changes
nothing else in the controller state. -/
theorem ApplyBreakpoints_not_stopped_defers (E : Collaborators) (s : CodeLiteLLDBApp)
    (c : LLDBCommand) (h : s.m_target.GetProcess.GetState ≠ StateType.eStateStopped) :
    ApplyBreakpoints E s c =
      { s with
        m_interruptReason := eInterruptReason.kInterruptReasonApplyBreakpoints,
        engineCalls := s.engineCalls ++ [EngineCall.SendAsyncInterrupt] } ∧
    (ApplyBreakpoints E s c).sent = s.sent ∧
    (ApplyBreakpoints E s c).m_target = s.m_target ∧
    (ApplyBreakpoints E s c).engineCalls.filter EngineCall.isCreateBreakpoint =
      s.engineCalls.filter EngineCall.isCreateBreakpoint := by
  have e : ApplyBreakpoints E s c =
      { s with
        m_interruptReason := eInterruptReason.kInterruptReasonApplyBreakpoints,
        engineCalls := s.engineCalls ++ [EngineCall.SendAsyncInterrupt] } := by
    unfold ApplyBreakpoints
    simp [h, call]
  refine ⟨e, ?_, ?_, ?_⟩
  · rw [e]
  · rw [e]
  · rw [e]
    simp [List.filter_append, EngineCall.isCreateBreakpoint]

/-- Witness of C5 at a session whose process is running. -/
theorem ApplyBreakpoints_not_stopped_defers_witness :
    (sessionApp StateType.eStateRunning).m_target.GetProcess.GetState ≠
      StateType.eStateStopped ∧
    (ApplyBreakpoints sampleCollaborators (sessionApp StateType.eStateRunning)
      fileLineCommand).sent = (sessionApp StateType.eStateRunning).sent :=
  ⟨by decide,
    (ApplyBreakpoints_not_stopped_defers sampleCollaborators
      (sessionApp StateType.eStateRunning) fileLineCommand (by decide)).2.1⟩

/-! ## The variable cache -/

theorem ExpandVariable_empty_cache (s : CodeLiteLLDBApp) (c : LLDBCommand)
    (h : s.m_variables = []) : ExpandVariable s c = s := by
  unfold ExpandVariable
  by_cases hid : c.m_lldbId == wxNOT_FOUND
  · simp [hid]
  · simp [hid, h, VariableMap.find]

theorem collectValue_foldl_valid (l : List SBValue) (init : VariableMap × List LLDBLocalVariable)
    (h : ∀ v ∈ l, v.IsValid = true) :
    (l.foldl collectValue init).2 = init.2 ++ l.map LLDBLocalVariable.ofValue := by
  induction l generalizing init with
  | nil => simp
  | cons v rest ih =>
    have hv : v.IsValid = true := h v (List.mem_cons_self _ _)
    rw [List.foldl_cons, ih _ (fun w hw => h w (List.mem_cons_of_mem _ hw))]
    simp [collectValue, hv]

theorem expandLength_le (value : SBValue) : expandLength value ≤ value.children.length := by
  unfold expandLength
  split
  · exact Nat.min_le_left _ _
  · exact Nat.le_refl _

/-- The loop bound of `ExpandVariable` is `expandLength`. -/
theorem expand_size_toNat (value : SBValue) :
    (if value.GetTypeClass == TypeClass.eTypeClassArray then
        (if value.GetNumChildren > MAX_ARRAY_SIZE then MAX_ARRAY_SIZE else value.GetNumChildren)
      else value.GetNumChildren).toNat = expandLength value := by
  unfold expandLength SBValue.GetNumChildren MAX_ARRAY_SIZE
  by_cases ha : value.GetTypeClass = TypeClass.eTypeClassArray
  · simp only [ha, beq_self_eq_true, if_true]
    split <;> omega
  · have hb : (value.GetTypeClass == TypeClass.eTypeClassArray) = false := by
      simpa using ha
    simp [hb, ha]

/-- C4: for a handle `h` held in the variable cache whose engine value has
only valid children, `n` of them, ExpandVariable emits exactly one
VariableExpanded reply, carrying `h` and the descriptors of the children at
indices `0 .. len-1` in engine order, where `len = min n 50` for an array
and `len = n` for any other type class. -/
theorem ExpandVariable_lists_children (s : CodeLiteLLDBApp) (c : LLDBCommand) (h : Nat)
    (value : SBValue) (hc : c.m_lldbId = (h : Int))
    (hfind : s.m_variables.find (h : Int) = some value)
    (hvalid : ∀ child ∈ value.children, child.IsValid = true) :
    (ExpandVariable s c).sent =
      s.sent ++
        [{ LLDBReply.new with
            m_replyType := eReplyType.kReplyTypeVariableExpanded,
            m_locals := (value.children.take (expandLength value)).map LLDBLocalVariable.ofValue,
            m_lldbId := (h : Int) }] ∧
    ((value.children.take (expandLength value)).map LLDBLocalVariable.ofValue).length =
      expandLength value ∧
    (value.GetTypeClass = TypeClass.eTypeClassArray →
      expandLength value = min value.children.length 50) ∧
    (value.GetTypeClass ≠ TypeClass.eTypeClassArray →
      expandLength value = value.children.length) := by
  refine ⟨?_, ?_, ?_, ?_⟩
  · have hne : (h : Int) ≠ wxNOT_FOUND := by
      unfold wxNOT_FOUND
      omega
    have hid : (c.m_lldbId == wxNOT_FOUND) = false := by
      rw [hc]
      simpa using hne
    unfold ExpandVariable
    simp only [hid, hc, hfind, Bool.false_eq_true, if_false]
    rw [expand_size_toNat]
    unfold SBValue.GetChildAtIndex
    rw [foldl_range_take value.children SBValue.invalid collectValue _ _ (expandLength_le value)]
    rw [collectValue_foldl_valid _ _ (fun v hv => hvalid v (List.mem_of_mem_take hv))]
    simp [SendReply, hne]
  · simp [expandLength_le]
  · intro ha
    simp [expandLength, ha]
  · intro ha
    simp [expandLength, ha]

/-- Witness of C4: the array of 200 children expands to exactly 50, the struct
of 200 fields to all 200. -/
theorem ExpandVariable_lists_children_witness :
    cachedApp.m_variables.find 7 = some arrayValue ∧
    cachedApp.m_variables.find 8 = some structValue ∧
    arrayValue.children.length = 200 ∧ structValue.children.length = 200 ∧
    ((arrayValue.children.take (expandLength arrayValue)).map
      LLDBLocalVariable.ofValue).length = 50 ∧
    ((structValue.children.take (expandLength structValue)).map
      LLDBLocalVariable.ofValue).length = 200 ∧
    (ExpandVariable cachedApp (expandCommand 7)).sent =
      cachedApp.sent ++
        [{ LLDBReply.new with
            m_replyType := eReplyType.kReplyTypeVariableExpanded,
            m_locals :=
              (arrayValue.children.take (expandLength arrayValue)).map LLDBLocalVariable.ofValue,
            m_lldbId := 7 }] ∧
    (ExpandVariable cachedApp (expandCommand 8)).sent =
      cachedApp.sent ++
        [{ LLDBReply.new with
            m_replyType := eReplyType.kReplyTypeVariableExpanded,
            m_locals :=
              (structValue.children.take (expandLength structValue)).map
                LLDBLocalVariable.ofValue,
            m_lldbId := 8 }] :=
  ⟨rfl, rfl, by simp [arrayValue], by simp [structValue],
    by simp [arrayValue, expandLength, SBValue.GetTypeClass],
    by simp [structValue, expandLength, SBValue.GetTypeClass],
    (ExpandVariable_lists_children cachedApp (expandCommand 7) 7 arrayValue rfl rfl
      (by simp [arrayValue, sampleChild, SBValue.IsValid])).1,
    (ExpandVariable_lists_children cachedApp (expandCommand 8) 8 structValue rfl rfl
      (by simp [structValue, sampleChild, SBValue.IsValid])).1⟩

/-! ## The stop notification and deferred breakpoints -/

theorem applyBreakpoint_target (E : Collaborators) (s t : CodeLiteLLDBApp) (b : LLDBBreakpoint)
    (h : s.m_target = t.m_target) :
    (applyBreakpoint E s b).m_target = (applyBreakpoint E t b).m_target := by
  unfold applyBreakpoint
  cases hb : b.IsApplied <;> cases ht : b.m_type <;> simp [call, h]

theorem applyLoop_target (E : Collaborators) (bps : List LLDBBreakpoint)
    (s t : CodeLiteLLDBApp) (h : s.m_target = t.m_target) :
    (applyLoop E s bps).m_target = (applyLoop E t bps).m_target := by
  induction bps generalizing s t with
  | nil => exact h
  | cons b rest ih =>
    rw [applyLoop, applyLoop]
    exact ih _ _ (applyBreakpoint_target E s t b h)

theorem NotifyStopped_target (s : CodeLiteLLDBApp) : s.NotifyStopped.m_target = s.m_target := rfl

/-- C6 (as amended): NotifyStopped does not apply deferred breakpoints. It makes
no engine call and leaves the target as it is, emits exactly one reply, of
type Stopped, that carries the pending interrupt reason and lists no
breakpoint, resets the reason to None and empties the cache. The breakpoints
of a deferred command are created when ApplyBreakpoints is executed once the
process is stopped: executed after the stop notification it makes the create
calls of the command and replies BreakpointsUpdated with the same breakpoint
set as if it had been executed in the stopped state before the notification. -/
theorem NotifyStopped_reports_without_applying (E : Collaborators) (s : CodeLiteLLDBApp)
    (c : LLDBCommand) :
    s.NotifyStopped.engineCalls = s.engineCalls ∧
    s.NotifyStopped.m_target = s.m_target ∧
    (∃ r, s.NotifyStopped.sent = s.sent ++ [r] ∧
      r.m_replyType = eReplyType.kReplyTypeDebuggerStopped ∧
      r.m_interruptResaon = s.m_interruptReason ∧ r.m_breakpoints = []) ∧
    s.NotifyStopped.m_interruptReason = eInterruptReason.kInterruptReasonNone ∧
    s.NotifyStopped.m_variables = [] ∧
    (s.m_target.GetProcess.GetState = StateType.eStateStopped →
      (ApplyBreakpoints E s.NotifyStopped c).engineCalls =
        s.engineCalls ++ createCalls c.m_breakpoints ∧
      (ApplyBreakpoints E s.NotifyStopped c).m_target = (ApplyBreakpoints E s c).m_target ∧
      (ApplyBreakpoints E s.NotifyStopped c).sent =
        s.NotifyStopped.sent ++ [breakpointsUpdatedReply (ApplyBreakpoints E s c).m_target]) := by
  refine ⟨rfl, rfl, ?_, rfl, rfl, ?_⟩
  · refine ⟨_, rfl, ?_, ?_, ?_⟩
    · dsimp only
      split
      · split <;> rfl
      · rfl
    · dsimp only
      split
      · split <;> rfl
      · rfl
    · dsimp only
      split
      · split <;> rfl
      · rfl
  · intro h
    have e1 := ApplyBreakpoints_stopped E s c h
    have e2 := ApplyBreakpoints_stopped E s.NotifyStopped c h
    have ht : (applyLoop E s.NotifyStopped c.m_breakpoints).m_target =
        (applyLoop E s c.m_breakpoints).m_target :=
      applyLoop_target E _ _ _ (NotifyStopped_target s)
    refine ⟨?_, ?_, ?_⟩
    · rw [e2, NotifyBreakpointsUpdated_engineCalls, applyLoop_engineCalls]
      rfl
    · rw [e1, e2, NotifyBreakpointsUpdated_target, NotifyBreakpointsUpdated_target, ht]
    · rw [e1, e2, NotifyBreakpointsUpdated_sent, NotifyBreakpointsUpdated_target, applyLoop_sent,
        ht]

/-- Witness of C6 (as amended) at the deferred scenario after the engine stopped
the process. -/
theorem NotifyStopped_reports_without_applying_witness :
    stoppedAfterInterrupt.m_target.GetProcess.GetState = StateType.eStateStopped ∧
    (ApplyBreakpoints sampleCollaborators stoppedAfterInterrupt.NotifyStopped
      fileLineCommand).engineCalls =
      stoppedAfterInterrupt.engineCalls ++ createCalls fileLineCommand.m_breakpoints :=
  ⟨rfl, ((NotifyStopped_reports_without_applying sampleCollaborators stoppedAfterInterrupt
    fileLineCommand).2.2.2.2.2 rfl).1⟩

/-- C6 fails as stated: the scenario request is deferred while the process runs
(pending reason ApplyBreakpoints), the engine stops the process, and
NotifyStopped then emits one Stopped reply and nothing else; no
create-breakpoint call is made and the engine holds no breakpoint, whereas the
request executed while stopped creates one. -/
theorem NotifyStopped_does_not_apply_deferred :
    stoppedAfterInterrupt.m_interruptReason =
      eInterruptReason.kInterruptReasonApplyBreakpoints ∧
    stoppedAfterInterrupt.engineCalls = [EngineCall.SendAsyncInterrupt] ∧
    stoppedAfterInterrupt.NotifyStopped.sent.map (fun r => r.m_replyType) =
      [eReplyType.kReplyTypeDebuggerStopped] ∧
    stoppedAfterInterrupt.NotifyStopped.engineCalls = [EngineCall.SendAsyncInterrupt] ∧
    stoppedAfterInterrupt.NotifyStopped.m_target.breakpoints = [] ∧
    appliedOnce.m_target.breakpoints.length = 1 ∧
    appliedOnce.sent.map (fun r => (r.m_replyType, r.m_breakpoints.length)) =
      [(eReplyType.kReplyTypeBreakpointsUpdated, 1)] :=
  ⟨rfl, rfl, rfl, rfl, rfl, rfl, rfl⟩

/-! ## Session lifecycle -/

/-- C7: StartDebugger in a session in progress returns the state as it found
it: engine and target handles, pid, interrupt reason, cache and event thread
are unchanged, no engine call is made and no reply is emitted. -/
theorem StartDebugger_noop_in_session (E : Collaborators) (s : CodeLiteLLDBApp)
    (c : LLDBCommand) (h : s.IsDebugSessionInProgress = true) : StartDebugger E s c = s := by
  unfold StartDebugger
  simp [h]

/-- Witness of C7 at a session with a stopped process. -/
theorem StartDebugger_noop_in_session_witness :
    (sessionApp StateType.eStateStopped).IsDebugSessionInProgress = true ∧
    StartDebugger sampleCollaborators (sessionApp StateType.eStateStopped) runCommand =
      sessionApp StateType.eStateStopped :=
  ⟨rfl, StartDebugger_noop_in_session sampleCollaborators (sessionApp StateType.eStateStopped)
    runCommand rfl⟩

theorem Cleanup_sent (s : CodeLiteLLDBApp) : s.Cleanup.sent = s.sent := by
  unfold Cleanup
  dsimp only
  split <;> rfl

theorem Cleanup_m_exitMainLoop (s : CodeLiteLLDBApp) :
    s.Cleanup.m_exitMainLoop = s.m_exitMainLoop := by
  unfold Cleanup
  dsimp only
  split <;> rfl

theorem Cleanup_resets (s : CodeLiteLLDBApp) :
    s.Cleanup.m_debuggeePid = wxNOT_FOUND ∧
    s.Cleanup.m_interruptReason = eInterruptReason.kInterruptReasonNone ∧
    s.Cleanup.m_variables = [] ∧ s.Cleanup.m_networkThread = false ∧
    s.Cleanup.m_lldbProcessEventThread = false := by
  unfold Cleanup
  dsimp only
  split <;> exact ⟨rfl, rfl, rfl, rfl, rfl⟩

theorem Cleanup_m_debugger (s : CodeLiteLLDBApp) : s.Cleanup.m_debugger = s.m_debugger := by
  unfold Cleanup
  dsimp only
  split <;> rfl

theorem Cleanup_target_invalid (s : CodeLiteLLDBApp) (h : s.m_debugger.IsValid = true) :
    s.Cleanup.m_target.IsValid = false := by
  unfold Cleanup
  dsimp only
  cases ht : s.m_target.IsValid
  · simp [ht]
  · have hd : s.m_debugger.valid = true := h
    have hv : s.m_target.valid = true := ht
    simp [call, SBDebugger.DeleteTarget, SBTarget.DeleteAllWatchpoints,
      SBTarget.DeleteAllBreakpoints, SBTarget.IsValid, SBTarget.invalid, hd, hv]

theorem Cleanup_not_in_progress (s : CodeLiteLLDBApp) :
    s.Cleanup.IsDebugSessionInProgress = false := by
  unfold IsDebugSessionInProgress
  rw [Cleanup_m_debugger]
  cases hd : s.m_debugger.IsValid
  · simp
  · simp [Cleanup_target_invalid s hd]

theorem StopDebugger_not_in_progress (s : CodeLiteLLDBApp) (c : LLDBCommand)
    (h : s.IsDebugSessionInProgress = false) : StopDebugger s c = s := by
  simp [StopDebugger, h]

theorem NotifyExited_facts (s : CodeLiteLLDBApp) :
    s.NotifyExited.sent = s.sent ++ [plainReply eReplyType.kReplyTypeDebuggerExited] ∧
    s.NotifyExited.m_debuggeePid = wxNOT_FOUND ∧
    s.NotifyExited.m_interruptReason = eInterruptReason.kInterruptReasonNone ∧
    s.NotifyExited.m_variables = [] ∧
    s.NotifyExited.m_exitMainLoop = true ∧
    s.NotifyExited.IsDebugSessionInProgress = false := by
  unfold NotifyExited
  dsimp only
  refine ⟨?_, ?_, ?_, ?_, rfl, ?_⟩
  · rw [Cleanup_sent]
    rfl
  · exact (Cleanup_resets _).1
  · exact (Cleanup_resets _).2.1
  · exact (Cleanup_resets _).2.2.1
  · exact Cleanup_not_in_progress _

theorem Cleanup_launches (s : CodeLiteLLDBApp) :
    s.Cleanup.engineCalls.filter EngineCall.isLaunch =
      s.engineCalls.filter EngineCall.isLaunch := by
  unfold Cleanup
  dsimp only
  split <;> simp [call, List.filter_append, EngineCall.isLaunch]

/-- C8: RunDebugger launches at most once per session. With no pid recorded and
a valid engine instance it makes exactly one launch call; when the launch
yields a valid process it records that process's id as the debuggee pid and
emits exactly one Running reply, and every further RunDebugger then makes no
engine call, emits no reply and leaves the state unchanged; when the launch
yields an invalid process it emits exactly one Exited reply, cleans up (pid
absent, reason None, cache empty, relay threads gone, target destroyed) and
sets the exit flag. In any state with a pid recorded RunDebugger does
nothing. -/
theorem RunDebugger_launches_once (E : Collaborators) (s : CodeLiteLLDBApp) (c : LLDBCommand)
    (hpid : s.m_debuggeePid = wxNOT_FOUND) (hd : s.m_debugger.IsValid = true) :
    (RunDebugger E s c).engineCalls.filter EngineCall.isLaunch =
      s.engineCalls.filter EngineCall.isLaunch ++
        [EngineCall.Launch (launchArgv E c) (launchTTY c)] ∧
    ((launchOf E s c).IsValid = true →
      (RunDebugger E s c).m_debuggeePid = (launchOf E s c).GetProcessID ∧
      (RunDebugger E s c).m_debuggeePid ≠ wxNOT_FOUND ∧
      (RunDebugger E s c).sent =
        s.sent ++ [plainReply eReplyType.kReplyTypeDebuggerRunning] ∧
      (RunDebugger E s c).engineCalls =
        s.engineCalls ++ [EngineCall.Launch (launchArgv E c) (launchTTY c)] ∧
      ∀ c2 : LLDBCommand, RunDebugger E (RunDebugger E s c) c2 = RunDebugger E s c) ∧
    ((launchOf E s c).IsValid = false →
      (RunDebugger E s c).sent =
        s.sent ++ [plainReply eReplyType.kReplyTypeDebuggerExited] ∧
      (RunDebugger E s c).m_debuggeePid = wxNOT_FOUND ∧
      (RunDebugger E s c).m_interruptReason = eInterruptReason.kInterruptReasonNone ∧
      (RunDebugger E s c).m_variables = [] ∧
      (RunDebugger E s c).m_networkThread = false ∧
      (RunDebugger E s c).m_lldbProcessEventThread = false ∧
      (RunDebugger E s c).m_target.IsValid = false ∧
      (RunDebugger E s c).m_exitMainLoop = true) ∧
    (∀ (t : CodeLiteLLDBApp) (c2 : LLDBCommand),
      t.m_debuggeePid ≠ wxNOT_FOUND → RunDebugger E t c2 = t) := by
  have hnoop : ∀ (t : CodeLiteLLDBApp) (c2 : LLDBCommand),
      t.m_debuggeePid ≠ wxNOT_FOUND → RunDebugger E t c2 = t := by
    intro t c2 ht
    unfold RunDebugger
    simp [ht]
  have hp : (s.m_debuggeePid != wxNOT_FOUND) = false := by simp [hpid]
  cases hv : (launchOf E s c).IsValid
  · have hv2 : (s.m_target.Launch E (E.ToArray c.m_commandArguments)
        (if c.m_redirectTTY.isEmpty then none else some c.m_redirectTTY)).IsValid = false := hv
    have e : RunDebugger E s c =
        NotifyExited
          { ({ s with m_variables := [] } : CodeLiteLLDBApp).call
              (EngineCall.Launch (launchArgv E c) (launchTTY c)) with
            m_target := s.m_target.launched (launchOf E s c) } := by
      unfold RunDebugger
      simp [hp, hd, hv2]
      rfl
    refine ⟨?_, ?_, ?_, hnoop⟩
    · rw [e]
      unfold NotifyExited
      dsimp only
      rw [Cleanup_launches]
      simp [SendReply, call, List.filter_append, EngineCall.isLaunch]
    · intro h
      simp at h
    · intro _
      rw [e]
      have f := NotifyExited_facts
        { ({ s with m_variables := [] } : CodeLiteLLDBApp).call
            (EngineCall.Launch (launchArgv E c) (launchTTY c)) with
          m_target := s.m_target.launched (launchOf E s c) }
      refine ⟨f.1, f.2.1, f.2.2.1, f.2.2.2.1, ?_, ?_, ?_, f.2.2.2.2.1⟩
      · unfold NotifyExited
        exact (Cleanup_resets _).2.2.2.1
      · unfold NotifyExited
        exact (Cleanup_resets _).2.2.2.2
      · unfold NotifyExited
        exact Cleanup_target_invalid _ hd
  · have hv2 : (s.m_target.Launch E (E.ToArray c.m_commandArguments)
        (if c.m_redirectTTY.isEmpty then none else some c.m_redirectTTY)).IsValid = true := hv
    have e : RunDebugger E s c =
        NotifyRunning
          { ({ s with m_variables := [] } : CodeLiteLLDBApp).call
              (EngineCall.Launch (launchArgv E c) (launchTTY c)) with
            m_target := s.m_target.launched (launchOf E s c),
            m_debuggeePid := (launchOf E s c).GetProcessID } := by
      unfold RunDebugger
      simp [hp, hd, hv2]
      rfl
    have hne : (launchOf E s c).GetProcessID ≠ wxNOT_FOUND := by
      unfold SBProcess.GetProcessID wxNOT_FOUND
      omega
    refine ⟨?_, ?_, ?_, hnoop⟩
    · rw [e]
      simp [NotifyRunning, SendReply, call, List.filter_append, EngineCall.isLaunch]
    · intro _
      refine ⟨?_, ?_, ?_, ?_, ?_⟩
      · rw [e]
        rfl
      · rw [e]
        exact hne
      · rw [e]
        rfl
      · rw [e]
        rfl
      · intro c2
        apply hnoop
        rw [e]
        exact hne
    · intro h
      simp at h

/-- Witness of C8: a created target is run; a launch that yields process 4242
records it, a launch that yields no process ends the session. -/
theorem RunDebugger_launches_once_witness :
    startedApp.m_debuggeePid = wxNOT_FOUND ∧ startedApp.m_debugger.IsValid = true ∧
    (launchOf launchingCollaborators startedApp runCommand).IsValid = true ∧
    (RunDebugger launchingCollaborators startedApp runCommand).m_debuggeePid = 4242 ∧
    (launchOf sampleCollaborators startedApp runCommand).IsValid = false ∧
    (RunDebugger sampleCollaborators startedApp runCommand).sent =
      startedApp.sent ++ [plainReply eReplyType.kReplyTypeDebuggerExited] :=
  ⟨rfl, rfl, rfl,
    ((RunDebugger_launches_once launchingCollaborators startedApp runCommand rfl rfl).2.1
      rfl).1,
    rfl,
    ((RunDebugger_launches_once sampleCollaborators startedApp runCommand rfl rfl).2.2.1
      rfl).1⟩

/-- C9: shutdown is idempotent. After NotifyExited in any state, and after
StopDebugger in a session in progress, exactly one Exited reply has been
emitted, the pid is absent, the interrupt reason is None, the variable cache
is empty and no session is in progress, so every subsequent StopDebugger
emits no reply and leaves the state unchanged. -/
theorem shutdown_idempotent (s : CodeLiteLLDBApp) (c : LLDBCommand) :
    (s.NotifyExited.sent = s.sent ++ [plainReply eReplyType.kReplyTypeDebuggerExited] ∧
      s.NotifyExited.m_debuggeePid = wxNOT_FOUND ∧
      s.NotifyExited.m_interruptReason = eInterruptReason.kInterruptReasonNone ∧
      s.NotifyExited.m_variables = [] ∧
      s.NotifyExited.IsDebugSessionInProgress = false ∧
      ∀ c2 : LLDBCommand, StopDebugger s.NotifyExited c2 = s.NotifyExited) ∧
    (s.IsDebugSessionInProgress = true →
      (StopDebugger s c).sent = s.sent ++ [plainReply eReplyType.kReplyTypeDebuggerExited] ∧
      (StopDebugger s c).m_debuggeePid = wxNOT_FOUND ∧
      (StopDebugger s c).m_interruptReason = eInterruptReason.kInterruptReasonNone ∧
      (StopDebugger s c).m_variables = [] ∧
      (StopDebugger s c).IsDebugSessionInProgress = false ∧
      ∀ c2 : LLDBCommand, StopDebugger (StopDebugger s c) c2 = StopDebugger s c) := by
  have f := NotifyExited_facts s
  refine ⟨⟨f.1, f.2.1, f.2.2.1, f.2.2.2.1, f.2.2.2.2.2,
    fun c2 => StopDebugger_not_in_progress _ c2 f.2.2.2.2.2⟩, ?_⟩
  intro h
  have e : StopDebugger s c = s.NotifyExited.Cleanup := by
    simp [StopDebugger, h]
  rw [e]
  refine ⟨?_, (Cleanup_resets _).1, (Cleanup_resets _).2.1, (Cleanup_resets _).2.2.1,
    Cleanup_not_in_progress _, fun c2 => StopDebugger_not_in_progress _ c2
      (Cleanup_not_in_progress _)⟩
  rw [Cleanup_sent]
  exact f.1

/-- Witness of C9: a session in progress is stopped, and stopped again. -/
theorem shutdown_idempotent_witness :
    (sessionApp StateType.eStateRunning).IsDebugSessionInProgress = true ∧
    (StopDebugger (sessionApp StateType.eStateRunning) LLDBCommand.new).sent =
      (sessionApp StateType.eStateRunning).sent ++
        [plainReply eReplyType.kReplyTypeDebuggerExited] ∧
    StopDebugger (StopDebugger (sessionApp StateType.eStateRunning) LLDBCommand.new)
      LLDBCommand.new = StopDebugger (sessionApp StateType.eStateRunning) LLDBCommand.new :=
  ⟨rfl,
    ((shutdown_idempotent (sessionApp StateType.eStateRunning) LLDBCommand.new).2 rfl).1,
    ((shutdown_idempotent (sessionApp StateType.eStateRunning) LLDBCommand.new).2
      rfl).2.2.2.2.2 LLDBCommand.new⟩

/-! ## The BreakpointsUpdated reply -/

theorem foldl_children (f : SBBreakpointLocation → LLDBBreakpoint)
    (l : List SBBreakpointLocation) (m : LLDBBreakpoint) :
    l.foldl (fun (m : LLDBBreakpoint) loc => { m with m_children := m.m_children ++ [f loc] }) m =
      { m with m_children := m.m_children ++ l.map f } := by
  induction l generalizing m with
  | nil =>
    cases m
    simp
  | cons loc rest ih =>
    rw [List.foldl_cons, ih]
    simp

theorem foldl_collect (l : List SBBreakpoint) (init : List LLDBBreakpoint) :
    l.foldl (fun acc bp => if bp.IsValid then acc ++ [mainBreakpoint bp] else acc) init =
      init ++ (l.filter (fun b => b.IsValid)).map mainBreakpoint := by
  induction l generalizing init with
  | nil => simp
  | cons bp rest ih =>
    rw [List.foldl_cons, ih]
    cases hv : bp.IsValid <;> simp [List.filter_cons, hv]

theorem collectBreakpoints_eq (t : SBTarget) :
    collectBreakpoints t = t.validBreakpoints.map mainBreakpoint := by
  unfold collectBreakpoints SBTarget.validBreakpoints SBTarget.GetNumBreakpoints
    SBTarget.GetBreakpointAtIndex
  cases hv : t.valid
  · simp
  · simp only [if_true]
    rw [foldl_range_getD t.breakpoints SBBreakpoint.invalid
      (fun acc bp => if bp.IsValid then acc ++ [mainBreakpoint bp] else acc) [], foldl_collect]
    simp

theorem mainBreakpoint_many (bp : SBBreakpoint) (h : bp.GetNumLocations > 1) :
    mainBreakpoint bp =
      { LLDBBreakpoint.new with
        m_id := bp.GetID, m_children := bp.locations.map locationChild } := by
  unfold mainBreakpoint
  simp only [h, if_true]
  unfold SBBreakpoint.GetNumLocations SBBreakpoint.GetLocationAtIndex
  rw [foldl_range_getD bp.locations SBBreakpointLocation.invalid
    (fun (m : LLDBBreakpoint) loc => { m with m_children := m.m_children ++ [locationChild loc] }),
    foldl_children]
  simp [LLDBBreakpoint.new]

theorem mainBreakpoint_m_id (bp : SBBreakpoint) : (mainBreakpoint bp).m_id = bp.GetID := by
  by_cases h : bp.GetNumLocations > 1
  · rw [mainBreakpoint_many bp h]
  · unfold mainBreakpoint
    simp [h]

/-- C10: the BreakpointsUpdated reply is rebuilt from the engine's breakpoint
set. NotifyBreakpointsUpdated emits exactly one reply, whose top-level list
has one entry per valid engine breakpoint in engine index order; each entry
carries the engine id of its breakpoint and so is applied; a breakpoint with
more than one location yields one `kLocation` child per location, in location
order, each with the file, line and function name of its location; a
breakpoint with a single location yields a childless `kFileLine` entry with
that location's file, line and function name. Applying one unapplied
`kFileLine` breakpoint while stopped to an engine without breakpoints yields
a reply with exactly one top-level breakpoint, which is applied. -/
theorem BreakpointsUpdated_mirrors_engine (E : Collaborators) (s : CodeLiteLLDBApp)
    (c : LLDBCommand) :
    s.NotifyBreakpointsUpdated.sent = s.sent ++ [breakpointsUpdatedReply s.m_target] ∧
    (breakpointsUpdatedReply s.m_target).m_replyType =
      eReplyType.kReplyTypeBreakpointsUpdated ∧
    (breakpointsUpdatedReply s.m_target).m_breakpoints =
      s.m_target.validBreakpoints.map mainBreakpoint ∧
    (∀ bp : SBBreakpoint,
      (mainBreakpoint bp).m_id = bp.GetID ∧ (mainBreakpoint bp).IsApplied = true ∧
      (bp.GetNumLocations > 1 →
        (mainBreakpoint bp).m_children = bp.locations.map locationChild) ∧
      (∀ loc : SBBreakpointLocation, bp.locations = [loc] →
        (mainBreakpoint bp).m_children = [] ∧
        (mainBreakpoint bp).m_type = eBreakpointType.kFileLine ∧
        (mainBreakpoint bp).m_filename = wxFileName.GetFullPath loc.directory loc.filename ∧
        (mainBreakpoint bp).m_lineNumber = loc.line ∧
        (mainBreakpoint bp).m_name = loc.functionName)) ∧
    (∀ loc : SBBreakpointLocation,
      (locationChild loc).m_type = eBreakpointType.kLocation ∧
      (locationChild loc).m_filename = wxFileName.GetFullPath loc.directory loc.filename ∧
      (locationChild loc).m_lineNumber = loc.line ∧
      (locationChild loc).m_name = loc.functionName) ∧
    (∀ b : LLDBBreakpoint,
      s.m_target.GetProcess.GetState = StateType.eStateStopped →
      s.m_target.breakpoints = [] → c.m_breakpoints = [b] → b.IsApplied = false →
      b.m_type = eBreakpointType.kFileLine →
      (ApplyBreakpoints E s c).sent =
        s.sent ++ [breakpointsUpdatedReply (ApplyBreakpoints E s c).m_target] ∧
      (breakpointsUpdatedReply (ApplyBreakpoints E s c).m_target).m_breakpoints =
        [mainBreakpoint
          { valid := true, id := s.m_target.nextBreakpointID,
            locations := E.ResolveByLocation s.m_target b.m_filename b.m_lineNumber }] ∧
      (breakpointsUpdatedReply (ApplyBreakpoints E s c).m_target).m_breakpoints.length = 1) := by
  have hid : ∀ bp : SBBreakpoint, (mainBreakpoint bp).IsApplied = true := by
    intro bp
    unfold LLDBBreakpoint.IsApplied
    rw [mainBreakpoint_m_id]
    unfold SBBreakpoint.GetID wxNOT_FOUND
    simp
  refine ⟨rfl, rfl, ?_, ?_, ?_, ?_⟩
  · exact collectBreakpoints_eq s.m_target
  · intro bp
    refine ⟨mainBreakpoint_m_id bp, hid bp, ?_, ?_⟩
    · intro h
      rw [mainBreakpoint_many bp h]
    · intro loc hl
      unfold mainBreakpoint SBBreakpoint.GetNumLocations SBBreakpoint.GetLocationAtIndex
      simp [hl, LLDBBreakpoint.new]
  · intro loc
    exact ⟨rfl, rfl, rfl, rfl⟩
  · intro b hs hb hc ha ht
    have hv : s.m_target.valid = true := by
      cases hv : s.m_target.valid
      · simp [SBTarget.GetProcess, hv, SBProcess.GetState, SBProcess.invalid] at hs
      · rfl
    have e := ApplyBreakpoints_stopped E s c hs
    have hb2 : (breakpointsUpdatedReply (ApplyBreakpoints E s c).m_target).m_breakpoints =
        [mainBreakpoint
          { valid := true, id := s.m_target.nextBreakpointID,
            locations := E.ResolveByLocation s.m_target b.m_filename b.m_lineNumber }] := by
      show collectBreakpoints _ = _
      rw [e, NotifyBreakpointsUpdated_target, collectBreakpoints_eq, hc]
      simp [applyLoop, applyBreakpoint, ha, ht, call, SBTarget.BreakpointCreateByLocation,
        SBTarget.BreakpointCreate, SBTarget.validBreakpoints, hv, hb, SBBreakpoint.IsValid]
    refine ⟨?_, hb2, ?_⟩
    · rw [e, NotifyBreakpointsUpdated_sent, NotifyBreakpointsUpdated_target, applyLoop_sent]
    · rw [hb2]
      rfl

/-- Witness of C10: the scenario request on a stopped session without breakpoints. -/
theorem BreakpointsUpdated_mirrors_engine_witness :
    (sessionApp StateType.eStateStopped).m_target.GetProcess.GetState =
      StateType.eStateStopped ∧
    inlinedBreakpoint.GetNumLocations > 1 ∧
    (mainBreakpoint inlinedBreakpoint).m_children =
      inlinedBreakpoint.locations.map locationChild ∧
    (breakpointsUpdatedReply (ApplyBreakpoints sampleCollaborators
      (sessionApp StateType.eStateStopped) fileLineCommand).m_target).m_breakpoints.length = 1 :=
  ⟨rfl, by decide,
    ((BreakpointsUpdated_mirrors_engine sampleCollaborators (sessionApp StateType.eStateStopped)
      fileLineCommand).2.2.2.1 inlinedBreakpoint).2.2.1 (by decide),
    ((BreakpointsUpdated_mirrors_engine sampleCollaborators (sessionApp StateType.eStateStopped)
      fileLineCommand).2.2.2.2.2 _ rfl rfl rfl rfl rfl).2.2⟩

/-! ## Cache invalidation on transitions -/

theorem applyBreakpoint_m_variables (E : Collaborators) (s : CodeLiteLLDBApp)
    (b : LLDBBreakpoint) : (applyBreakpoint E s b).m_variables = s.m_variables := by
  unfold applyBreakpoint
  split
  · split <;> rfl
  · rfl

theorem applyLoop_m_variables (E : Collaborators) (bps : List LLDBBreakpoint)
    (s : CodeLiteLLDBApp) : (applyLoop E s bps).m_variables = s.m_variables := by
  induction bps generalizing s with
  | nil => rfl
  | cons b rest ih => rw [applyLoop, ih, applyBreakpoint_m_variables]

theorem deleteBreakpoint_m_variables (s : CodeLiteLLDBApp) (b : LLDBBreakpoint) :
    (deleteBreakpoint s b).m_variables = s.m_variables := by
  unfold deleteBreakpoint
  split
  · dsimp only
    split <;> rfl
  · rfl

theorem foldl_deleteBreakpoint_m_variables (bps : List LLDBBreakpoint) (s : CodeLiteLLDBApp) :
    (bps.foldl deleteBreakpoint s).m_variables = s.m_variables := by
  induction bps generalizing s with
  | nil => rfl
  | cons b rest ih => rw [List.foldl_cons, ih, deleteBreakpoint_m_variables]

theorem RunDebugger_cases (E : Collaborators) (s : CodeLiteLLDBApp) (c : LLDBCommand) :
    RunDebugger E s c = s ∨ (∃ t : CodeLiteLLDBApp, RunDebugger E s c = t.NotifyExited) ∨
      (∃ t : CodeLiteLLDBApp, RunDebugger E s c = t.NotifyRunning) := by
  unfold RunDebugger
  dsimp only
  split_ifs
  all_goals
    first
    | exact Or.inl rfl
    | exact Or.inr (Or.inl ⟨_, rfl⟩)
    | exact Or.inr (Or.inr ⟨_, rfl⟩)

/-- An empty cache stays empty under every command handler but LocalVariables. -/
theorem command_keeps_cache_empty (E : Collaborators) (pFunc : CommandFunc_t)
    (s : CodeLiteLLDBApp) (c : LLDBCommand) (hf : pFunc ≠ CommandFunc_t.LocalVariables)
    (h : s.m_variables = []) : (pFunc.run E s c).m_variables = [] := by
  cases pFunc with
  | StartDebugger =>
    unfold CommandFunc_t.run StartDebugger
    dsimp only
    split
    · exact h
    · split
      · exact (Cleanup_resets _).2.2.1
      · rfl
  | RunDebugger =>
    show (RunDebugger E s c).m_variables = []
    rcases RunDebugger_cases E s c with e | ⟨t, e⟩ | ⟨t, e⟩
    · rw [e]
      exact h
    · rw [e]
      exact (NotifyExited_facts t).2.2.2.1
    · rw [e]
      rfl
  | ApplyBreakpoints =>
    unfold CommandFunc_t.run ApplyBreakpoints
    dsimp only
    split
    · show (applyLoop E s c.m_breakpoints).m_variables = []
      rw [applyLoop_m_variables]
      exact h
    · exact h
  | DeleteBreakpoints =>
    unfold CommandFunc_t.run DeleteBreakpoints
    dsimp only
    split
    · exact h
    · split
      · exact h
      · split
        · show (c.m_breakpoints.foldl deleteBreakpoint s).m_variables = []
          rw [foldl_deleteBreakpoint_m_variables]
          exact h
        · exact h
  | DeleteAllBreakpoints =>
    unfold CommandFunc_t.run DeleteAllBreakpoints
    dsimp only
    split
    · exact h
    · split <;> exact h
  | Continue =>
    unfold CommandFunc_t.run Continue
    dsimp only
    split <;> exact h
  | Next =>
    unfold CommandFunc_t.run Next
    dsimp only
    split <;> exact h
  | StepIn =>
    unfold CommandFunc_t.run StepIn
    dsimp only
    split <;> exact h
  | StepOut =>
    unfold CommandFunc_t.run StepOut
    dsimp only
    split <;> exact h
  | StopDebugger =>
    unfold CommandFunc_t.run StopDebugger
    dsimp only
    split
    · exact h
    · exact (Cleanup_resets _).2.2.1
  | Interrupt => exact h
  | LocalVariables => exact absurd rfl hf
  | ExpandVariable =>
    show (ExpandVariable s c).m_variables = []
    rw [ExpandVariable_empty_cache s c h]
    exact h

/-- An empty cache stays empty under every notification handler. -/
theorem notify_keeps_cache_empty (notify_func : NotifyFunc_t) (s : CodeLiteLLDBApp)
    (h : s.m_variables = []) : (notify_func.run s).m_variables = [] := by
  cases notify_func with
  | NotifyAllBreakpointsDeleted => exact h
  | NotifyBreakpointsUpdated => exact h
  | NotifyExited => exact (NotifyExited_facts s).2.2.2.1
  | NotifyRunning => rfl
  | NotifyStarted => rfl
  | NotifyStopped => rfl
  | NotifyStoppedOnFirstEntry => rfl

theorem dispatches_keep_cache_empty (E : Collaborators) (items : List Dispatch)
    (s : CodeLiteLLDBApp) (hitems : ∀ d ∈ items, d.isLocalVariables = false)
    (h : s.m_variables = []) : (items.foldl (Dispatch.run E) s).m_variables = [] := by
  induction items generalizing s with
  | nil => exact h
  | cons d rest ih =>
    rw [List.foldl_cons]
    apply ih _ (fun e he => hitems e (List.mem_cons_of_mem _ he))
    have hd := hitems d (List.mem_cons_self _ _)
    cases d with
    | command pFunc c =>
      show (pFunc.run E s c).m_variables = []
      apply command_keeps_cache_empty E pFunc s c _ h
      intro hp
      rw [hp] at hd
      simp [Dispatch.isLocalVariables] at hd
    | notify n =>
      show (n.run s).m_variables = []
      exact notify_keeps_cache_empty n s h

/-- C3: NotifyRunning, NotifyStopped and NotifyStoppedOnFirstEntry each leave
the variable cache empty, whatever it held. After any of them, and after any
further commands and notifications among which there is no LocalVariables
(an ExpandVariable in between finds nothing and so adds nothing), the cache
is still empty, and ExpandVariable of any handle emits no reply and leaves
the controller state, the cache included, unchanged. -/
theorem transitions_clear_variable_cache (E : Collaborators) (s : CodeLiteLLDBApp)
    (c : LLDBCommand) (items : List Dispatch)
    (hitems : ∀ d ∈ items, d.isLocalVariables = false) :
    s.NotifyRunning.m_variables = [] ∧ s.NotifyStopped.m_variables = [] ∧
    s.NotifyStoppedOnFirstEntry.m_variables = [] ∧
    ExpandVariable s.NotifyRunning c = s.NotifyRunning ∧
    ExpandVariable s.NotifyStopped c = s.NotifyStopped ∧
    ExpandVariable s.NotifyStoppedOnFirstEntry c = s.NotifyStoppedOnFirstEntry ∧
    ExpandVariable (items.foldl (Dispatch.run E) s.NotifyRunning) c =
      items.foldl (Dispatch.run E) s.NotifyRunning ∧
    ExpandVariable (items.foldl (Dispatch.run E) s.NotifyStopped) c =
      items.foldl (Dispatch.run E) s.NotifyStopped ∧
    ExpandVariable (items.foldl (Dispatch.run E) s.NotifyStoppedOnFirstEntry) c =
      items.foldl (Dispatch.run E) s.NotifyStoppedOnFirstEntry :=
  ⟨rfl, rfl, rfl, ExpandVariable_empty_cache _ c rfl, ExpandVariable_empty_cache _ c rfl,
    ExpandVariable_empty_cache _ c rfl,
    ExpandVariable_empty_cache _ c (dispatches_keep_cache_empty E items _ hitems rfl),
    ExpandVariable_empty_cache _ c (dispatches_keep_cache_empty E items _ hitems rfl),
    ExpandVariable_empty_cache _ c (dispatches_keep_cache_empty E items _ hitems rfl)⟩

/-- Witness of C3: a stopped session with a filled cache is told it runs, a
Continue and a stop notification follow, and the expansion of the array
handle then does nothing. -/
theorem transitions_clear_variable_cache_witness :
    cachedApp.m_variables.find 7 = some arrayValue ∧
    (∀ d ∈ sampleDispatches, d.isLocalVariables = false) ∧
    cachedApp.NotifyRunning.m_variables = [] ∧
    ExpandVariable cachedApp.NotifyRunning (expandCommand 7) = cachedApp.NotifyRunning ∧
    ExpandVariable
        (sampleDispatches.foldl (Dispatch.run sampleCollaborators) cachedApp.NotifyStopped)
        (expandCommand 7) =
      sampleDispatches.foldl (Dispatch.run sampleCollaborators) cachedApp.NotifyStopped :=
  ⟨rfl, by decide,
    (transitions_clear_variable_cache sampleCollaborators cachedApp (expandCommand 7)
      sampleDispatches (by decide)).1,
    (transitions_clear_variable_cache sampleCollaborators cachedApp (expandCommand 7)
      sampleDispatches (by decide)).2.2.2.1,
    (transitions_clear_variable_cache sampleCollaborators cachedApp (expandCommand 7)
      sampleDispatches (by decide)).2.2.2.2.2.2.2.1⟩


/-! ## Local variables -/

theorem VariableMap.find_insert_self (m : VariableMap) (k : Int) (v : SBValue) :
    ((m.insert k v).find k).isSome = true := by
  unfold VariableMap.insert VariableMap.find
  cases h : List.lookup k m with
  | some w => simp [h]
  | none => simp [List.lookup_append, h, List.lookup]

theorem VariableMap.find_insert_of_isSome (m : VariableMap) (k j : Int) (v : SBValue)
    (h : (m.find j).isSome = true) : ((m.insert k v).find j).isSome = true := by
  unfold VariableMap.insert
  cases hk : List.lookup k m with
  | some w => simpa using h
  | none =>
    unfold VariableMap.find at h ⊢
    simp only [List.lookup_append]
    cases hj : List.lookup j m with
    | some w => simp
    | none => simp [hj] at h

theorem collectValue_isSome (acc : VariableMap × List LLDBLocalVariable) (v : SBValue) (j : Int)
    (h : (acc.1.find j).isSome = true) : ((collectValue acc v).1.find j).isSome = true := by
  unfold collectValue
  split
  · exact VariableMap.find_insert_of_isSome _ _ _ _ h
  · exact h

theorem collectValue_foldl_isSome (l : List SBValue)
    (init : VariableMap × List LLDBLocalVariable) (j : Int)
    (h : (init.1.find j).isSome = true) :
    ((l.foldl collectValue init).1.find j).isSome = true := by
  induction l generalizing init with
  | nil => exact h
  | cons v rest ih =>
    rw [List.foldl_cons]
    exact ih _ (collectValue_isSome init v j h)

theorem collectValue_foldl_keys (l : List SBValue) (init : VariableMap × List LLDBLocalVariable)
    (v : SBValue) (hv : v ∈ l) (hvalid : v.IsValid = true) :
    ((l.foldl collectValue init).1.find v.GetID).isSome = true := by
  induction l generalizing init with
  | nil => simp at hv
  | cons w rest ih =>
    rw [List.foldl_cons]
    rcases List.mem_cons.mp hv with e | hmem
    · apply collectValue_foldl_isSome
      rw [← e]
      unfold collectValue
      simp only [hvalid, if_true]
      exact VariableMap.find_insert_self _ _ _
    · exact ih _ hmem

theorem collectValue_foldl_locals (l : List SBValue)
    (init : VariableMap × List LLDBLocalVariable) :
    (l.foldl collectValue init).2 =
      init.2 ++ (l.filter (fun v => v.IsValid)).map LLDBLocalVariable.ofValue := by
  induction l generalizing init with
  | nil => simp
  | cons v rest ih =>
    rw [List.foldl_cons, ih]
    cases hv : v.IsValid <;> simp [collectValue, hv, List.filter_cons]

/-- The body of `LocalVariables`, with its index loop read as a pass over the
list of values. -/
theorem LocalVariables_eq (s : CodeLiteLLDBApp) (c : LLDBCommand) :
    LocalVariables s c =
      NotifyLocals
        { (if !(selectedFrameOf s).IsValid then s.NotifyLocals [] else s) with
          m_variables :=
            ((selectedFrameOf s).GetVariables.foldl collectValue
              ((if !(selectedFrameOf s).IsValid then s.NotifyLocals [] else s).m_variables,
                [])).1 }
        ((selectedFrameOf s).GetVariables.foldl collectValue
          ((if !(selectedFrameOf s).IsValid then s.NotifyLocals [] else s).m_variables, [])).2 := by
  unfold LocalVariables selectedFrameOf
  dsimp only
  rw [foldl_range_getD]

/-- C11, as the code has it: LocalVariables lists in its last LocalsUpdated
reply one descriptor per valid engine value of the selected frame's arguments
and locals, in engine order, and afterwards the id of every such value is a
key of the variable cache. With a valid selected frame (with or without
variables) it emits exactly one LocalsUpdated reply. With no valid selected
frame it emits two LocalsUpdated replies, both with an empty list, because
the branch for an invalid frame notifies and does not return; the claim asks
for exactly one. -/
theorem LocalVariables_replies (s : CodeLiteLLDBApp) (c : LLDBCommand) :
    (∀ v ∈ (selectedFrameOf s).GetVariables, v.IsValid = true →
      ((LocalVariables s c).m_variables.find v.GetID).isSome = true) ∧
    ((selectedFrameOf s).IsValid = true →
      (LocalVariables s c).sent =
        s.sent ++
          [localsReply
            (((selectedFrameOf s).GetVariables.filter (fun v => v.IsValid)).map
              LLDBLocalVariable.ofValue)]) ∧
    ((selectedFrameOf s).IsValid = false →
      (LocalVariables s c).sent = s.sent ++ [localsReply [], localsReply []] ∧
      (LocalVariables s c).m_variables = s.m_variables) := by
  refine ⟨?_, ?_, ?_⟩
  · intro v hv hvalid
    rw [LocalVariables_eq]
    exact collectValue_foldl_keys _ _ v hv hvalid
  · intro h
    rw [LocalVariables_eq, collectValue_foldl_locals]
    simp [h, NotifyLocals, SendReply, localsReply]
  · intro h
    have hg : (selectedFrameOf s).GetVariables = [] := by
      have h2 : (selectedFrameOf s).valid = false := h
      simp [SBFrame.GetVariables, h2]
    rw [LocalVariables_eq, hg]
    simp [h, NotifyLocals, SendReply, localsReply]

/-- Witness of C11: the controller as constructed has no valid selected frame
and LocalVariables replies twice; with a frame of two valid values and one
invalid it replies once, with two descriptors, and both ids are cached; with a
valid frame without variables it replies once, with an empty list. -/
theorem LocalVariables_replies_witness :
    (selectedFrameOf idleApp).IsValid = false ∧
    (LocalVariables idleApp LLDBCommand.new).sent = [localsReply [], localsReply []] ∧
    (selectedFrameOf framedApp).IsValid = true ∧
    (LocalVariables framedApp LLDBCommand.new).sent =
      [localsReply
        [LLDBLocalVariable.ofValue (sampleChild 11), LLDBLocalVariable.ofValue (sampleChild 12)]] ∧
    ((LocalVariables framedApp LLDBCommand.new).m_variables.find 12).isSome = true ∧
    (selectedFrameOf emptyFrameApp).IsValid = true ∧
    (LocalVariables emptyFrameApp LLDBCommand.new).sent = [localsReply []] :=
  ⟨rfl, ((LocalVariables_replies idleApp LLDBCommand.new).2.2 rfl).1, rfl,
    (LocalVariables_replies framedApp LLDBCommand.new).2.1 rfl,
    (LocalVariables_replies framedApp LLDBCommand.new).1 (sampleChild 12)
      (by simp [selectedFrameOf, framedApp, SBTarget.GetProcess, sessionApp, idleApp,
        SBProcess.GetSelectedThread, SBThread.GetSelectedFrame, SBFrame.GetVariables,
        sampleFrame]) rfl,
    rfl, (LocalVariables_replies emptyFrameApp LLDBCommand.new).2.1 rfl⟩

/-! ## The dispatch loop -/

open MainLoopState

theorem iteration_queues (E : Collaborators) (st : MainLoopState) :
    (st.iteration E).m_commands_queue = st.m_commands_queue.tail ∧
    (st.iteration E).m_notify_queue = st.m_notify_queue.tail ∧
    (st.iteration E).ran = st.ran ++ frontDispatches st ∧
    (st.iteration E).app = (frontDispatches st).foldl (Dispatch.run E) st.app := by
  rcases st with ⟨cq, nq, app, ran⟩
  cases cq <;> cases nq <;>
    simp [iteration, receiveCommand, receiveNotify, frontDispatches, Dispatch.run]

theorem frontDispatches_split (st : MainLoopState) :
    commandsOf (frontDispatches st) = st.m_commands_queue.head?.toList ∧
    notificationsOf (frontDispatches st) = st.m_notify_queue.head?.toList := by
  rcases st with ⟨cq, nq, app, ran⟩
  cases cq <;> cases nq <;> simp [frontDispatches, commandsOf, notificationsOf]

theorem head_toList_append_tail {α : Type} (l : List α) : l.head?.toList ++ l.tail = l := by
  cases l <;> simp

theorem iteration_commands (E : Collaborators) (st : MainLoopState) :
    commandsOf (st.iteration E).ran ++ (st.iteration E).m_commands_queue =
      commandsOf st.ran ++ st.m_commands_queue := by
  rw [(iteration_queues E st).1, (iteration_queues E st).2.2.1]
  unfold commandsOf
  rw [List.filterMap_append]
  have h := (frontDispatches_split st).1
  unfold commandsOf at h
  rw [h, List.append_assoc, head_toList_append_tail]

theorem iteration_notifications (E : Collaborators) (st : MainLoopState) :
    notificationsOf (st.iteration E).ran ++ (st.iteration E).m_notify_queue =
      notificationsOf st.ran ++ st.m_notify_queue := by
  rw [(iteration_queues E st).2.1, (iteration_queues E st).2.2.1]
  unfold notificationsOf
  rw [List.filterMap_append]
  have h := (frontDispatches_split st).2
  unfold notificationsOf at h
  rw [h, List.append_assoc, head_toList_append_tail]

theorem apply_commands (E : Collaborators) (st : MainLoopState) (e : LoopEvent) :
    commandsOf (e.apply E st).ran ++ (e.apply E st).m_commands_queue =
      commandsOf st.ran ++ st.m_commands_queue ++ postedCommands [e] := by
  cases e with
  | CallAfter func msg =>
    simp [LoopEvent.apply, MainLoopState.CallAfter, postedCommands]
  | PostNotify n => simp [LoopEvent.apply, MainLoopState.PostNotify, postedCommands]
  | iteration =>
    have hi := iteration_commands E st
    by_cases h : st.app.m_exitMainLoop = true
    · simp [LoopEvent.apply, h, postedCommands]
    · simp [LoopEvent.apply, h, postedCommands, hi]

theorem apply_notifications (E : Collaborators) (st : MainLoopState) (e : LoopEvent) :
    notificationsOf (e.apply E st).ran ++ (e.apply E st).m_notify_queue =
      notificationsOf st.ran ++ st.m_notify_queue ++ postedNotifications [e] := by
  cases e with
  | CallAfter func msg =>
    simp [LoopEvent.apply, MainLoopState.CallAfter, postedNotifications]
  | PostNotify n => simp [LoopEvent.apply, MainLoopState.PostNotify, postedNotifications]
  | iteration =>
    have hi := iteration_notifications E st
    by_cases h : st.app.m_exitMainLoop = true
    · simp [LoopEvent.apply, h, postedNotifications]
    · simp [LoopEvent.apply, h, postedNotifications, hi]

theorem runEvents_commands (E : Collaborators) (events : List LoopEvent) (st : MainLoopState) :
    commandsOf (runEvents E st events).ran ++ (runEvents E st events).m_commands_queue =
      commandsOf st.ran ++ st.m_commands_queue ++ postedCommands events := by
  induction events generalizing st with
  | nil => simp [runEvents, postedCommands]
  | cons e rest ih =>
    have h := ih (e.apply E st)
    unfold runEvents at h ⊢
    rw [List.foldl_cons, h, apply_commands]
    simp [postedCommands, List.filterMap_cons]
    cases e <;> simp

theorem runEvents_notifications (E : Collaborators) (events : List LoopEvent)
    (st : MainLoopState) :
    notificationsOf (runEvents E st events).ran ++ (runEvents E st events).m_notify_queue =
      notificationsOf st.ran ++ st.m_notify_queue ++ postedNotifications events := by
  induction events generalizing st with
  | nil => simp [runEvents, postedNotifications]
  | cons e rest ih =>
    have h := ih (e.apply E st)
    unfold runEvents at h ⊢
    rw [List.foldl_cons, h, apply_notifications]
    simp [postedNotifications, List.filterMap_cons]
    cases e <;> simp

theorem apply_ran (E : Collaborators) (st : MainLoopState) (e : LoopEvent) :
    ∃ extra : List Dispatch, (e.apply E st).ran = st.ran ++ extra ∧
      (e.apply E st).app = extra.foldl (Dispatch.run E) st.app := by
  cases e with
  | CallAfter func msg => exact ⟨[], by simp [LoopEvent.apply, MainLoopState.CallAfter]⟩
  | PostNotify n => exact ⟨[], by simp [LoopEvent.apply, MainLoopState.PostNotify]⟩
  | iteration =>
    by_cases h : st.app.m_exitMainLoop = true
    · exact ⟨[], by simp [LoopEvent.apply, h]⟩
    · refine ⟨frontDispatches st, ?_, ?_⟩
      · simp only [LoopEvent.apply, h, if_false]
        exact (iteration_queues E st).2.2.1
      · simp only [LoopEvent.apply, h, if_false]
        exact (iteration_queues E st).2.2.2

theorem runEvents_ran (E : Collaborators) (events : List LoopEvent) (st : MainLoopState) :
    ∃ extra : List Dispatch, (runEvents E st events).ran = st.ran ++ extra ∧
      (runEvents E st events).app = extra.foldl (Dispatch.run E) st.app := by
  induction events generalizing st with
  | nil => exact ⟨[], by simp [runEvents]⟩
  | cons e rest ih =>
    obtain ⟨x, hx1, hx2⟩ := apply_ran E st e
    obtain ⟨y, hy1, hy2⟩ := ih (e.apply E st)
    refine ⟨x ++ y, ?_, ?_⟩
    · unfold runEvents at hy1 ⊢
      rw [List.foldl_cons, hy1, hx1, List.append_assoc]
    · unfold runEvents at hy2 ⊢
      rw [List.foldl_cons, hy2, hx2, List.foldl_append]

theorem apply_after_exit (E : Collaborators) (st : MainLoopState) (e : LoopEvent)
    (h : st.app.m_exitMainLoop = true) :
    (e.apply E st).app = st.app ∧ (e.apply E st).ran = st.ran := by
  cases e with
  | CallAfter func msg => exact ⟨rfl, rfl⟩
  | PostNotify n => exact ⟨rfl, rfl⟩
  | iteration => simp [LoopEvent.apply, h]

theorem runEvents_after_exit (E : Collaborators) (events : List LoopEvent) (st : MainLoopState)
    (h : st.app.m_exitMainLoop = true) :
    (runEvents E st events).app = st.app ∧ (runEvents E st events).ran = st.ran := by
  induction events generalizing st with
  | nil => exact ⟨rfl, rfl⟩
  | cons e rest ih =>
    have ha := apply_after_exit E st e h
    have hr := ih (e.apply E st) (by rw [ha.1]; exact h)
    unfold runEvents at hr ⊢
    rw [List.foldl_cons]
    exact ⟨hr.1.trans ha.1, hr.2.trans ha.2⟩

theorem whileLoop_after_exit (E : Collaborators) (fuel : Nat) (st : MainLoopState)
    (h : st.app.m_exitMainLoop = true) : st.whileLoop E fuel = st := by
  cases fuel with
  | zero => rfl
  | succ n => simp [whileLoop, h]

theorem whileLoop_eq_runEvents (E : Collaborators) (fuel : Nat) (st : MainLoopState) :
    st.whileLoop E fuel = runEvents E st (List.replicate fuel LoopEvent.iteration) := by
  induction fuel generalizing st with
  | zero => rfl
  | succ n ih =>
    by_cases h : st.app.m_exitMainLoop = true
    · have e : runEvents E st (List.replicate (n + 1) LoopEvent.iteration) =
          runEvents E st (List.replicate n LoopEvent.iteration) := by
        simp [runEvents, List.replicate_succ, LoopEvent.apply, h]
      rw [e, ← ih, whileLoop_after_exit E _ st h, whileLoop_after_exit E _ st h]
    · have e : runEvents E st (List.replicate (n + 1) LoopEvent.iteration) =
          runEvents E (st.iteration E) (List.replicate n LoopEvent.iteration) := by
        simp [runEvents, List.replicate_succ, LoopEvent.apply, h]
      rw [e, ← ih]
      simp [whileLoop, h]

/-- C12: one iteration of the dispatch loop removes the head of the command
queue, if there is one, and runs it, then removes the head of the
notification queue, if there is one, and runs it; both queues keep their
tails untouched, so at most one command and then at most one notification
are executed. Over any run of iterations and posts the executed commands
followed by the waiting ones are the commands in insertion order, and the
same holds of the notifications; the controller state is the result of
executing the dispatches in the order recorded, and the `while` loop itself
is such a run. Once the exit flag is set no iteration begins: the loop
returns, and nothing more is executed. -/
theorem MainLoop_dispatches_in_order (E : Collaborators) (st : MainLoopState)
    (events : List LoopEvent) (fuel : Nat) :
    (st.iteration E).m_commands_queue = st.m_commands_queue.tail ∧
    (st.iteration E).m_notify_queue = st.m_notify_queue.tail ∧
    (st.iteration E).ran = st.ran ++ frontDispatches st ∧
    commandsOf (frontDispatches st) = st.m_commands_queue.head?.toList ∧
    notificationsOf (frontDispatches st) = st.m_notify_queue.head?.toList ∧
    (st.iteration E).app =
      (st.m_notify_queue.head?.map Dispatch.notify).toList.foldl (Dispatch.run E)
        ((st.m_commands_queue.head?.map (fun msg => Dispatch.command msg.1 msg.2)).toList.foldl
          (Dispatch.run E) st.app) ∧
    commandsOf (runEvents E st events).ran ++ (runEvents E st events).m_commands_queue =
      commandsOf st.ran ++ st.m_commands_queue ++ postedCommands events ∧
    notificationsOf (runEvents E st events).ran ++ (runEvents E st events).m_notify_queue =
      notificationsOf st.ran ++ st.m_notify_queue ++ postedNotifications events ∧
    (∃ extra : List Dispatch, (runEvents E st events).ran = st.ran ++ extra ∧
      (runEvents E st events).app = extra.foldl (Dispatch.run E) st.app) ∧
    st.whileLoop E fuel = runEvents E st (List.replicate fuel LoopEvent.iteration) ∧
    (st.app.m_exitMainLoop = true →
      LoopEvent.apply E st LoopEvent.iteration = st ∧ st.whileLoop E fuel = st ∧
      MainLoop E true fuel st = { st with app := { st.app with m_networkThread := true } } ∧
      (runEvents E st events).app = st.app ∧ (runEvents E st events).ran = st.ran) := by
  have hq := iteration_queues E st
  refine ⟨hq.1, hq.2.1, hq.2.2.1, (frontDispatches_split st).1, (frontDispatches_split st).2,
    ?_, runEvents_commands E events st, runEvents_notifications E events st,
    runEvents_ran E events st, whileLoop_eq_runEvents E fuel st, ?_⟩
  · rw [hq.2.2.2, frontDispatches, List.foldl_append]
  · intro h
    refine ⟨by simp [LoopEvent.apply, h], whileLoop_after_exit E fuel st h, ?_,
      (runEvents_after_exit E events st h).1, (runEvents_after_exit E events st h).2⟩
    unfold MainLoop CodeLiteLLDBApp.AcceptNewConnection
    simp only [if_true]
    exact whileLoop_after_exit E fuel _ h

/-- Witness of C12: in the sample session the second iteration runs
StopDebugger, which sets the exit flag, and the stop notification after it;
from then on the loop executes nothing, whatever is posted. -/
theorem MainLoop_dispatches_in_order_witness :
    exitedLoopState.app.m_exitMainLoop = true ∧
    commandsOf exitedLoopState.ran = sampleLoopState.m_commands_queue ∧
    notificationsOf exitedLoopState.ran = sampleLoopState.m_notify_queue ∧
    exitedLoopState.whileLoop sampleCollaborators 5 = exitedLoopState ∧
    (runEvents sampleCollaborators exitedLoopState sampleEvents).ran = exitedLoopState.ran ∧
    commandsOf (runEvents sampleCollaborators sampleLoopState sampleEvents).ran ++
        (runEvents sampleCollaborators sampleLoopState sampleEvents).m_commands_queue =
      commandsOf sampleLoopState.ran ++ sampleLoopState.m_commands_queue ++
        postedCommands sampleEvents :=
  ⟨rfl, rfl, rfl,
    ((MainLoop_dispatches_in_order sampleCollaborators exitedLoopState sampleEvents
      5).2.2.2.2.2.2.2.2.2.2 rfl).2.1,
    ((MainLoop_dispatches_in_order sampleCollaborators exitedLoopState sampleEvents
      5).2.2.2.2.2.2.2.2.2.2 rfl).2.2.2.2,
    (MainLoop_dispatches_in_order sampleCollaborators sampleLoopState sampleEvents
      5).2.2.2.2.2.2.1⟩

/-! ## The invariant of reachable states -/

theorem SessionInvariant_of_core (s t : CodeLiteLLDBApp) (hi : SessionInvariant s)
    (ht : t.m_target.valid = s.m_target.valid) (hd : t.m_debugger.valid = s.m_debugger.valid)
    (hp : t.m_debuggeePid = s.m_debuggeePid)
    (hv : t.m_variables = s.m_variables ∨ t.m_variables = []) : SessionInvariant t := by
  refine ⟨?_, ?_⟩
  · intro h
    rw [hd]
    exact hi.1 (ht ▸ h)
  · intro h
    have h2 := hi.2 (ht ▸ h)
    refine ⟨?_, hp.trans h2.2⟩
    rcases hv with e | e
    · exact e.trans h2.1
    · exact e

theorem BreakpointCreate_valid (t : SBTarget) (locs : List SBBreakpointLocation) :
    (t.BreakpointCreate locs).valid = t.valid := by
  unfold SBTarget.BreakpointCreate
  split <;> rfl

theorem BreakpointDelete_valid (t : SBTarget) (id : Int) :
    (t.BreakpointDelete id).valid = t.valid := by
  unfold SBTarget.BreakpointDelete
  split <;> rfl

theorem DeleteAllBreakpoints_valid (t : SBTarget) : t.DeleteAllBreakpoints.valid = t.valid := by
  unfold SBTarget.DeleteAllBreakpoints
  split <;> rfl

theorem launched_valid (t : SBTarget) (p : SBProcess) : (t.launched p).valid = t.valid := by
  unfold SBTarget.launched
  split <;> rfl

theorem applyBreakpoint_core (E : Collaborators) (s : CodeLiteLLDBApp) (b : LLDBBreakpoint) :
    (applyBreakpoint E s b).m_target.valid = s.m_target.valid ∧
    (applyBreakpoint E s b).m_debugger = s.m_debugger ∧
    (applyBreakpoint E s b).m_debuggeePid = s.m_debuggeePid := by
  unfold applyBreakpoint
  cases hb : b.IsApplied <;> cases ht : b.m_type <;>
    simp [call, SBTarget.BreakpointCreateByName, SBTarget.BreakpointCreateByLocation,
      BreakpointCreate_valid]

theorem applyLoop_core (E : Collaborators) (bps : List LLDBBreakpoint) (s : CodeLiteLLDBApp) :
    (applyLoop E s bps).m_target.valid = s.m_target.valid ∧
    (applyLoop E s bps).m_debugger = s.m_debugger ∧
    (applyLoop E s bps).m_debuggeePid = s.m_debuggeePid := by
  induction bps generalizing s with
  | nil => exact ⟨rfl, rfl, rfl⟩
  | cons b rest ih =>
    rw [applyLoop]
    have h1 := ih (applyBreakpoint E s b)
    have h2 := applyBreakpoint_core E s b
    exact ⟨h1.1.trans h2.1, h1.2.1.trans h2.2.1, h1.2.2.trans h2.2.2⟩

theorem deleteBreakpoint_core (s : CodeLiteLLDBApp) (b : LLDBBreakpoint) :
    (deleteBreakpoint s b).m_target.valid = s.m_target.valid ∧
    (deleteBreakpoint s b).m_debugger = s.m_debugger ∧
    (deleteBreakpoint s b).m_debuggeePid = s.m_debuggeePid := by
  unfold deleteBreakpoint
  split
  · dsimp only
    split
    · exact ⟨BreakpointDelete_valid _ _, rfl, rfl⟩
    · exact ⟨rfl, rfl, rfl⟩
  · exact ⟨rfl, rfl, rfl⟩

theorem foldl_deleteBreakpoint_core (bps : List LLDBBreakpoint) (s : CodeLiteLLDBApp) :
    (bps.foldl deleteBreakpoint s).m_target.valid = s.m_target.valid ∧
    (bps.foldl deleteBreakpoint s).m_debugger = s.m_debugger ∧
    (bps.foldl deleteBreakpoint s).m_debuggeePid = s.m_debuggeePid := by
  induction bps generalizing s with
  | nil => exact ⟨rfl, rfl, rfl⟩
  | cons b rest ih =>
    rw [List.foldl_cons]
    have h1 := ih (deleteBreakpoint s b)
    have h2 := deleteBreakpoint_core s b
    exact ⟨h1.1.trans h2.1, h1.2.1.trans h2.2.1, h1.2.2.trans h2.2.2⟩

theorem Cleanup_invariant (s : CodeLiteLLDBApp) (hi : SessionInvariant s) :
    SessionInvariant s.Cleanup := by
  refine ⟨?_, fun _ => ⟨(Cleanup_resets s).2.2.1, (Cleanup_resets s).1⟩⟩
  intro h
  cases hd : s.m_debugger.valid
  · exfalso
    have ht : s.m_target.valid = false := by
      cases ht : s.m_target.valid
      · rfl
      · rw [hi.1 ht] at hd
        exact absurd hd (by decide)
    have e : s.Cleanup.m_target = s.m_target := by
      unfold Cleanup
      simp [SBTarget.IsValid, ht]
    rw [e, ht] at h
    exact absurd h (by decide)
  · have hv := Cleanup_target_invalid s hd
    have hv2 : s.Cleanup.m_target.valid = false := hv
    rw [hv2] at h
    exact absurd h (by decide)

theorem NotifyExited_invariant (s : CodeLiteLLDBApp) (hi : SessionInvariant s) :
    SessionInvariant s.NotifyExited := by
  unfold NotifyExited
  dsimp only
  have h1 : SessionInvariant
      (s.SendReply { LLDBReply.new with m_replyType := eReplyType.kReplyTypeDebuggerExited }) :=
    SessionInvariant_of_core s _ hi rfl rfl rfl (Or.inl rfl)
  exact SessionInvariant_of_core _ _ (Cleanup_invariant _ h1) rfl rfl rfl (Or.inl rfl)

theorem StartDebugger_invariant (E : Collaborators) (s : CodeLiteLLDBApp) (c : LLDBCommand)
    (hi : SessionInvariant s) : SessionInvariant (StartDebugger E s c) := by
  unfold StartDebugger
  dsimp only
  split
  · exact hi
  · have h1 : SessionInvariant
        (if (!c.m_workingDirectory.isEmpty) = true then { s with cwd := c.m_workingDirectory }
          else s) := by
      split
      · exact SessionInvariant_of_core s _ hi rfl rfl rfl (Or.inl rfl)
      · exact hi
    split
    · exact Cleanup_invariant _ h1
    · refine ⟨?_, fun _ => ⟨rfl, rfl⟩⟩
      intro h
      have h2 : (E.Create.CreateTarget E c.m_executable).valid = true := h
      show (E.Create.SetAsync true).valid = true
      unfold SBDebugger.CreateTarget at h2
      cases hc : E.Create.valid
      · rw [hc] at h2
        simp [SBTarget.invalid] at h2
      · simp [SBDebugger.SetAsync, hc]

theorem Launch_valid_target (E : Collaborators) (t : SBTarget) (argv : List String)
    (tty : Option String) (h : (t.Launch E argv tty).IsValid = true) : t.valid = true := by
  unfold SBTarget.Launch at h
  cases ht : t.valid
  · rw [ht] at h
    simp [SBProcess.invalid, SBProcess.IsValid] at h
  · rfl

theorem RunDebugger_invariant (E : Collaborators) (s : CodeLiteLLDBApp) (c : LLDBCommand)
    (hi : SessionInvariant s) : SessionInvariant (RunDebugger E s c) := by
  unfold RunDebugger
  by_cases hp : (s.m_debuggeePid != wxNOT_FOUND) = true
  · simp only [hp, if_true]
    exact hi
  · by_cases hd : s.m_debugger.IsValid = true
    · simp only [hp, hd, if_true]
      have hpid : s.m_debuggeePid = wxNOT_FOUND := by simpa using hp
      by_cases hv : (s.m_target.Launch E (E.ToArray c.m_commandArguments)
          (if c.m_redirectTTY.isEmpty then none else some c.m_redirectTTY)).IsValid = true
      · simp only [hv, Bool.not_true, if_false]
        have ht := Launch_valid_target E _ _ _ hv
        refine ⟨fun _ => hd, ?_⟩
        intro h
        have h2 : (s.m_target.launched (s.m_target.Launch E (E.ToArray c.m_commandArguments)
            (if c.m_redirectTTY.isEmpty then none else some c.m_redirectTTY))).valid = false := h
        rw [launched_valid, ht] at h2
        exact absurd h2 (by decide)
      · have hv2 : (s.m_target.Launch E (E.ToArray c.m_commandArguments)
            (if c.m_redirectTTY.isEmpty then none else some c.m_redirectTTY)).IsValid = false := by
          simpa using hv
        simp only [hv2, Bool.not_false, if_true]
        apply NotifyExited_invariant
        exact SessionInvariant_of_core s _ hi (launched_valid _ _) rfl rfl (Or.inr rfl)
    · simp only [hp, hd, if_false]
      exact hi

theorem ExpandVariable_core (s : CodeLiteLLDBApp) (c : LLDBCommand) :
    (ExpandVariable s c).m_target = s.m_target ∧ (ExpandVariable s c).m_debugger = s.m_debugger ∧
    (ExpandVariable s c).m_debuggeePid = s.m_debuggeePid := by
  unfold ExpandVariable
  dsimp only
  split
  · exact ⟨rfl, rfl, rfl⟩
  · split <;> exact ⟨rfl, rfl, rfl⟩

theorem ExpandVariable_invariant (s : CodeLiteLLDBApp) (c : LLDBCommand)
    (hi : SessionInvariant s) : SessionInvariant (ExpandVariable s c) := by
  cases ht : s.m_target.valid
  · rw [ExpandVariable_empty_cache s c (hi.2 ht).1]
    exact hi
  · have hc := ExpandVariable_core s c
    refine ⟨?_, ?_⟩
    · intro _
      rw [hc.2.1]
      exact hi.1 ht
    · intro h
      rw [hc.1, ht] at h
      exact absurd h (by decide)

theorem selectedFrameOf_invalid (s : CodeLiteLLDBApp) (ht : s.m_target.valid = false) :
    (selectedFrameOf s).IsValid = false := by
  simp [selectedFrameOf, SBTarget.GetProcess, ht, SBProcess.invalid, SBProcess.GetSelectedThread,
    SBThread.invalid, SBThread.GetSelectedFrame, SBFrame.invalid, SBFrame.IsValid]

/-- Without a valid selected frame `LocalVariables` changes nothing but `sent`. -/
theorem LocalVariables_invalid_frame (s : CodeLiteLLDBApp) (c : LLDBCommand)
    (h : (selectedFrameOf s).IsValid = false) :
    LocalVariables s c = { s with sent := (LocalVariables s c).sent } := by
  have hg : (selectedFrameOf s).GetVariables = [] := by
    have h2 : (selectedFrameOf s).valid = false := h
    simp [SBFrame.GetVariables, h2]
  rw [LocalVariables_eq, hg]
  simp [h, NotifyLocals, SendReply]

theorem LocalVariables_core (s : CodeLiteLLDBApp) (c : LLDBCommand) :
    (LocalVariables s c).m_target = s.m_target ∧ (LocalVariables s c).m_debugger = s.m_debugger ∧
    (LocalVariables s c).m_debuggeePid = s.m_debuggeePid := by
  rw [LocalVariables_eq]
  unfold NotifyLocals SendReply
  dsimp only
  split <;> exact ⟨rfl, rfl, rfl⟩

theorem LocalVariables_invariant (s : CodeLiteLLDBApp) (c : LLDBCommand)
    (hi : SessionInvariant s) : SessionInvariant (LocalVariables s c) := by
  have hc := LocalVariables_core s c
  cases ht : s.m_target.valid
  · have e := LocalVariables_invalid_frame s c (selectedFrameOf_invalid s ht)
    rw [e]
    exact SessionInvariant_of_core s _ hi rfl rfl rfl (Or.inl rfl)
  · refine ⟨?_, ?_⟩
    · intro _
      rw [hc.2.1]
      exact hi.1 ht
    · intro h
      rw [hc.1, ht] at h
      exact absurd h (by decide)

theorem command_invariant (E : Collaborators) (pFunc : CommandFunc_t) (s : CodeLiteLLDBApp)
    (c : LLDBCommand) (hi : SessionInvariant s) : SessionInvariant (pFunc.run E s c) := by
  cases pFunc with
  | StartDebugger => exact StartDebugger_invariant E s c hi
  | RunDebugger => exact RunDebugger_invariant E s c hi
  | ApplyBreakpoints =>
    show SessionInvariant (ApplyBreakpoints E s c)
    unfold ApplyBreakpoints
    dsimp only
    split
    · have h := applyLoop_core E c.m_breakpoints s
      exact SessionInvariant_of_core s _ hi h.1 (congrArg _ h.2.1) h.2.2
        (Or.inl (applyLoop_m_variables E c.m_breakpoints s))
    · exact SessionInvariant_of_core s _ hi rfl rfl rfl (Or.inl rfl)
  | DeleteBreakpoints =>
    show SessionInvariant (DeleteBreakpoints s c)
    unfold DeleteBreakpoints
    dsimp only
    split
    · exact hi
    · split
      · exact hi
      · split
        · have h := foldl_deleteBreakpoint_core c.m_breakpoints s
          exact SessionInvariant_of_core s _ hi h.1 (congrArg _ h.2.1) h.2.2
            (Or.inl (foldl_deleteBreakpoint_m_variables c.m_breakpoints s))
        · exact SessionInvariant_of_core s _ hi rfl rfl rfl (Or.inl rfl)
  | DeleteAllBreakpoints =>
    show SessionInvariant (DeleteAllBreakpoints s c)
    unfold DeleteAllBreakpoints
    dsimp only
    split
    · exact hi
    · split
      · exact SessionInvariant_of_core s _ hi (DeleteAllBreakpoints_valid _) rfl rfl (Or.inl rfl)
      · exact SessionInvariant_of_core s _ hi rfl rfl rfl (Or.inl rfl)
  | Continue =>
    show SessionInvariant (Continue s c)
    unfold Continue
    split
    · exact hi
    · exact SessionInvariant_of_core s _ hi rfl rfl rfl (Or.inl rfl)
  | Next =>
    show SessionInvariant (Next s c)
    unfold Next
    split
    · exact hi
    · exact SessionInvariant_of_core s _ hi rfl rfl rfl (Or.inl rfl)
  | StepIn =>
    show SessionInvariant (StepIn s c)
    unfold StepIn
    split
    · exact hi
    · exact SessionInvariant_of_core s _ hi rfl rfl rfl (Or.inl rfl)
  | StepOut =>
    show SessionInvariant (StepOut s c)
    unfold StepOut
    split
    · exact hi
    · exact SessionInvariant_of_core s _ hi rfl rfl rfl (Or.inl rfl)
  | StopDebugger =>
    show SessionInvariant (StopDebugger s c)
    unfold StopDebugger
    dsimp only
    split
    · exact hi
    · exact Cleanup_invariant _ (NotifyExited_invariant s hi)
  | Interrupt => exact SessionInvariant_of_core s _ hi rfl rfl rfl (Or.inl rfl)
  | LocalVariables => exact LocalVariables_invariant s c hi
  | ExpandVariable => exact ExpandVariable_invariant s c hi

theorem notify_invariant (notify_func : NotifyFunc_t) (s : CodeLiteLLDBApp)
    (hi : SessionInvariant s) : SessionInvariant (notify_func.run s) := by
  cases notify_func with
  | NotifyAllBreakpointsDeleted => exact SessionInvariant_of_core s _ hi rfl rfl rfl (Or.inl rfl)
  | NotifyBreakpointsUpdated => exact SessionInvariant_of_core s _ hi rfl rfl rfl (Or.inl rfl)
  | NotifyExited => exact NotifyExited_invariant s hi
  | NotifyRunning => exact SessionInvariant_of_core s _ hi rfl rfl rfl (Or.inr rfl)
  | NotifyStarted => exact SessionInvariant_of_core s _ hi rfl rfl rfl (Or.inr rfl)
  | NotifyStopped => exact SessionInvariant_of_core s _ hi rfl rfl rfl (Or.inr rfl)
  | NotifyStoppedOnFirstEntry => exact SessionInvariant_of_core s _ hi rfl rfl rfl (Or.inr rfl)

/-- Every reachable state satisfies the invariant. -/
theorem Reachable.invariant (E : Collaborators) (s : CodeLiteLLDBApp) (hr : Reachable E s) :
    SessionInvariant s := by
  induction hr with
  | constructed cwd =>
    refine ⟨fun h => ?_, fun _ => ⟨rfl, rfl⟩⟩
    simp [CodeLiteLLDBApp.new, SBTarget.invalid] at h
  | dispatch s d _ ih =>
    cases d with
    | command pFunc c => exact command_invariant E pFunc s c ih
    | notify n => exact notify_invariant n s ih
  | connected s _ ih => exact SessionInvariant_of_core s _ ih rfl rfl rfl (Or.inl rfl)
  | cleanup s _ ih => exact Cleanup_invariant s ih
  | engine s t _ ht ih => exact SessionInvariant_of_core s _ ih ht rfl rfl (Or.inl rfl)

/-! ## Commands without a session -/

theorem no_session_target_invalid (s : CodeLiteLLDBApp) (hi : SessionInvariant s)
    (h : s.IsDebugSessionInProgress = false) : s.m_target.valid = false := by
  cases ht : s.m_target.valid
  · rfl
  · have hd := hi.1 ht
    simp [IsDebugSessionInProgress, SBDebugger.IsValid, SBTarget.IsValid, hd, ht] at h

theorem GetState_target_invalid (t : SBTarget) (ht : t.valid = false) :
    t.GetProcess.GetState = StateType.eStateInvalid := by
  simp [SBTarget.GetProcess, ht, SBProcess.GetState, SBProcess.invalid]

/-- A launch attempted on an invalid target fails: RunDebugger replies Exited. -/
theorem RunDebugger_target_invalid (E : Collaborators) (s : CodeLiteLLDBApp) (c : LLDBCommand)
    (hp : s.m_debuggeePid = wxNOT_FOUND) (hd : s.m_debugger.IsValid = true)
    (ht : s.m_target.valid = false) :
    (RunDebugger E s c).sent = s.sent ++ [plainReply eReplyType.kReplyTypeDebuggerExited] := by
  have hp2 : (s.m_debuggeePid != wxNOT_FOUND) = false := by simp [hp]
  have hv : (s.m_target.Launch E (E.ToArray c.m_commandArguments)
      (if c.m_redirectTTY.isEmpty then none else some c.m_redirectTTY)).IsValid = false := by
    simp [SBTarget.Launch, ht, SBProcess.invalid, SBProcess.IsValid]
  unfold RunDebugger
  simp only [hp2, hd, hv, Bool.not_false, if_true, Bool.false_eq_true, if_false]
  exact (NotifyExited_facts _).1

/-- C1 (as amended): with no session in progress, each handler that starts with
`CHECK_DEBUG_SESSION_RUNNING` (DeleteBreakpoints, DeleteAllBreakpoints,
Continue, Next, StepIn, StepOut, StopDebugger) returns the state as it found
it: no engine call, no reply, no change. In every state the controller can
reach, no session in progress means no target and an empty cache, so
ExpandVariable returns the state unchanged too, and RunDebugger does exactly
when the engine instance is invalid. There Interrupt and ApplyBreakpoints
emit no reply, create no breakpoint and change nothing but the pending
interrupt reason, sending one asynchronous interrupt, and LocalVariables
makes no engine call and changes nothing but the replies sent. -/
theorem guarded_handlers_noop_without_session (E : Collaborators) (s : CodeLiteLLDBApp)
    (c : LLDBCommand) (h : s.IsDebugSessionInProgress = false) :
    DeleteBreakpoints s c = s ∧ DeleteAllBreakpoints s c = s ∧ Continue s c = s ∧
    Next s c = s ∧ StepIn s c = s ∧ StepOut s c = s ∧ StopDebugger s c = s ∧
    (Reachable E s →
      ExpandVariable s c = s ∧
      (RunDebugger E s c = s ↔ s.m_debugger.IsValid = false) ∧
      Interrupt s c =
        { s with
          m_interruptReason := c.m_interruptReason,
          engineCalls := s.engineCalls ++ [EngineCall.SendAsyncInterrupt] } ∧
      ApplyBreakpoints E s c =
        { s with
          m_interruptReason := eInterruptReason.kInterruptReasonApplyBreakpoints,
          engineCalls := s.engineCalls ++ [EngineCall.SendAsyncInterrupt] } ∧
      LocalVariables s c = { s with sent := (LocalVariables s c).sent }) := by
  refine ⟨?_, ?_, ?_, ?_, ?_, ?_, ?_, ?_⟩
  · simp [DeleteBreakpoints, h]
  · simp [DeleteAllBreakpoints, h]
  · simp [Continue, h]
  · simp [Next, h]
  · simp [StepIn, h]
  · simp [StepOut, h]
  · simp [StopDebugger, h]
  · intro hr
    have hi := Reachable.invariant E s hr
    have ht := no_session_target_invalid s hi h
    have hc := hi.2 ht
    refine ⟨ExpandVariable_empty_cache s c hc.1, ?_, rfl, ?_,
      LocalVariables_invalid_frame s c (selectedFrameOf_invalid s ht)⟩
    · constructor
      · intro e
        cases hd : s.m_debugger.IsValid
        · rfl
        · exfalso
          have hs := RunDebugger_target_invalid E s c hc.2 hd ht
          rw [e] at hs
          have hl := congrArg List.length hs
          simp at hl
      · intro hd
        unfold RunDebugger
        simp [hc.2, hd]
    · unfold ApplyBreakpoints
      simp [GetState_target_invalid _ ht, call]

/-- Witness of C1 (as amended) at the controller as constructed, and at one
whose engine instance failed to come up. -/
theorem guarded_handlers_noop_without_session_witness :
    idleApp.IsDebugSessionInProgress = false ∧
    DeleteBreakpoints idleApp fileLineCommand = idleApp ∧
    StopDebugger idleApp fileLineCommand = idleApp ∧
    ExpandVariable idleApp (expandCommand 7) = idleApp ∧
    noEngineApp.IsDebugSessionInProgress = false ∧ noEngineApp.m_debugger.IsValid = false ∧
    RunDebugger failingCollaborators noEngineApp runCommand = noEngineApp :=
  ⟨rfl,
    (guarded_handlers_noop_without_session sampleCollaborators idleApp fileLineCommand rfl).1,
    (guarded_handlers_noop_without_session sampleCollaborators idleApp fileLineCommand
      rfl).2.2.2.2.2.2.1,
    ((guarded_handlers_noop_without_session sampleCollaborators idleApp (expandCommand 7)
      rfl).2.2.2.2.2.2.2 (Reachable.constructed "/")).1,
    rfl, rfl,
    ((guarded_handlers_noop_without_session failingCollaborators noEngineApp runCommand
      rfl).2.2.2.2.2.2.2 (Reachable.constructed "/")).2.1.mpr rfl⟩

/-- C1 fails as stated: the controller as constructed is a reachable state in
which no session is in progress, yet Interrupt records the reason and
interrupts, ApplyBreakpoints records its reason and interrupts,
LocalVariables replies, and RunDebugger attempts a launch and replies
Exited. -/
theorem unguarded_handlers_act_without_session :
    Reachable sampleCollaborators idleApp ∧
    idleApp.IsDebugSessionInProgress = false ∧
    (Interrupt idleApp userInterruptCommand).m_interruptReason =
      eInterruptReason.kInterruptReasonUser ∧
    (Interrupt idleApp userInterruptCommand).engineCalls = [EngineCall.SendAsyncInterrupt] ∧
    Interrupt idleApp userInterruptCommand ≠ idleApp ∧
    (ApplyBreakpoints sampleCollaborators idleApp fileLineCommand).m_interruptReason =
      eInterruptReason.kInterruptReasonApplyBreakpoints ∧
    ApplyBreakpoints sampleCollaborators idleApp fileLineCommand ≠ idleApp ∧
    ((LocalVariables idleApp LLDBCommand.new).sent.map (fun r => r.m_replyType)) =
      [eReplyType.kReplyTypeLocalsUpdated, eReplyType.kReplyTypeLocalsUpdated] ∧
    LocalVariables idleApp LLDBCommand.new ≠ idleApp ∧
    ((RunDebugger sampleCollaborators idleApp LLDBCommand.new).sent.map
      (fun r => r.m_replyType)) = [eReplyType.kReplyTypeDebuggerExited] ∧
    (RunDebugger sampleCollaborators idleApp LLDBCommand.new).engineCalls =
      [EngineCall.Launch [] none] ∧
    RunDebugger sampleCollaborators idleApp LLDBCommand.new ≠ idleApp := by
  refine ⟨Reachable.constructed "/", rfl, rfl, rfl, ?_, rfl, ?_, rfl, ?_, rfl, rfl, ?_⟩
  · intro h
    exact absurd (congrArg (fun a => a.engineCalls.length) h) (by decide)
  · intro h
    exact absurd (congrArg (fun a => a.engineCalls.length) h) (by decide)
  · intro h
    exact absurd (congrArg (fun a => a.sent.length) h) (by decide)
  · intro h
    exact absurd (congrArg (fun a => a.sent.length) h) (by decide)
